import Mathlib

/-!
# Wallet ledger: a shallow embedding of `src/routes/wallet.js`

The Express handlers of `src/routes/wallet.js` and the validation middleware of
`src/middleware/validation.js` are embedded as pure functions over an explicit
model of the Redis keyspace.

Modelling conventions.

* The keyspace is one map from key strings to values; a value is a hash or a
  list, as in Redis.  Keys are built exactly as the template strings of the
  source build them (`wallet:<id>` and `wallet:<id>:tx`).
* Amounts and balances are exact rationals.  A hash field written as a number
  and read back with `Number.parseFloat` / `Number.parseInt` is the same number,
  and `JSON.parse (JSON.stringify tx)` is `tx`.
* `Date.now()` and `uuidv4()` are arguments of the handlers.
* Every `await` on the Redis client may throw.  A handler takes a fault plan
  `fault : Nat → Bool`; `fault i = true` makes the `i`-th store call of the
  handler throw before it has any effect.  `noFault` is the plan of a run in
  which the store never fails.
* The rate limiter of `src/middleware/rate-limiter.js` only touches keys of the
  form `ratelimit:<ip>:wallets` and is not part of the model.
-/

namespace Wallet

/-! ## Data model -/

/-- The `type` field of a stored transaction. -/
inductive TxType where
  | credit
  | debit
  deriving DecidableEq, Repr

/-- The transaction object built by the credit and debit handlers
(`wallet.js` lines 80-87 and 144-151). -/
structure Transaction where
  transaction_id : String
  type : TxType
  amount : ℚ
  reason : String
  timestamp : Nat
  balance_after_transaction : ℚ
  deriving DecidableEq, Repr

/-- A Redis hash holding a wallet record.  A field is `none` when the hash has
no such field. -/
structure Hash where
  wallet_id : Option String
  balance : Option ℚ
  created_at : Option Nat
  last_updated : Option Nat
  deriving DecidableEq, Repr

/-- A value stored under a key. -/
inductive Value where
  | hash (h : Hash)
  | list (items : List Transaction)
  deriving DecidableEq, Repr

/-- The Redis keyspace. -/
abbrev Store := String → Option Value

/-- The keyspace with no key. -/
def emptyStore : Store := fun _ => none

/-- The template string wallet:<wallet_id> with the id filled in. -/
def walletKey (wallet_id : String) : String := "wallet:" ++ wallet_id

/-- The template string wallet:<wallet_id>:tx with the id filled in. -/
def txKey (wallet_id : String) : String := "wallet:" ++ wallet_id ++ ":tx"

/-! ## Redis commands -/

/-- The object returned by `hGetAll` for a key that does not exist. -/
def Hash.empty : Hash :=
  { wallet_id := none, balance := none, created_at := none, last_updated := none }

/-- The test `Object.keys(wallet).length === 0`. -/
def Hash.isEmpty (h : Hash) : Bool :=
  h.wallet_id.isNone && h.balance.isNone && h.created_at.isNone && h.last_updated.isNone

/-- Writing the fields of `patch` over `old`: fields absent from `patch` keep
their old value. -/
def Hash.merge (old patch : Hash) : Hash :=
  { wallet_id := patch.wallet_id.orElse (fun _ => old.wallet_id)
    balance := patch.balance.orElse (fun _ => old.balance)
    created_at := patch.created_at.orElse (fun _ => old.created_at)
    last_updated := patch.last_updated.orElse (fun _ => old.last_updated) }

/-- Redis `HGETALL`: the hash, the empty object for a missing key, an error
(`none`) for a key holding a list. -/
def hGetAll (s : Store) (key : String) : Option Hash :=
  match s key with
  | none => some Hash.empty
  | some (.hash h) => some h
  | some (.list _) => none

/-- Redis `EXISTS`: true for a key of either type. -/
def existsKey (s : Store) (key : String) : Bool := (s key).isSome

/-- Redis `HSET`: creates the hash or updates the given fields; an error
(`none`) for a key holding a list. -/
def hSet (s : Store) (key : String) (patch : Hash) : Option Store :=
  match s key with
  | none => some (Function.update s key (some (.hash (Hash.empty.merge patch))))
  | some (.hash h) => some (Function.update s key (some (.hash (h.merge patch))))
  | some (.list _) => none

/-- Redis `RPUSH`: appends at the tail, creating the list; an error (`none`)
for a key holding a hash. -/
def rPush (s : Store) (key : String) (tx : Transaction) : Option Store :=
  match s key with
  | none => some (Function.update s key (some (.list [tx])))
  | some (.list l) => some (Function.update s key (some (.list (l ++ [tx]))))
  | some (.hash _) => none

/-- Redis `DEL`. -/
def del (s : Store) (key : String) : Store := Function.update s key none

/-- Redis `LRANGE` on the items of a list: negative indices count from the
tail, and the range is clamped to the list. -/
def lRangeItems (items : List Transaction) (start stop : Int) : List Transaction :=
  let llen : Int := items.length
  let start1 := if start < 0 then llen + start else start
  let stop1 := if stop < 0 then llen + stop else stop
  let start2 := if start1 < 0 then 0 else start1
  if start2 > stop1 ∨ start2 ≥ llen then []
  else
    let stop2 := if stop1 ≥ llen then llen - 1 else stop1
    (items.drop start2.toNat).take (stop2 - start2 + 1).toNat

/-- A 64-bit signed integer, from -2^63 to 2^63 - 1. -/
def isInt64 (n : Int) : Bool :=
  decide (-9223372036854775808 ≤ n) && decide (n ≤ 9223372036854775807)

/-- `Number.MAX_SAFE_INTEGER`, 2^53 - 1: up to it a JavaScript number is an exact
integer and its decimal text, which is what the client sends, is that integer. -/
def maxSafeInteger : Int := 9007199254740991

/-- Redis `LRANGE`.  Redis reads both indices as 64-bit signed integers before
it looks the key up and answers "value is not an integer or out of range", an
error (`none`), when one of them is not, whatever the key holds.  Otherwise:
the empty array for a missing key, an error (`none`) for a key holding a hash.
The indices are exact integers here. -/
def lRange (s : Store) (key : String) (start stop : Int) : Option (List Transaction) :=
  if isInt64 start && isInt64 stop then
    match s key with
    | none => some []
    | some (.list l) => some (lRangeItems l start stop)
    | some (.hash _) => none
  else none

/-- A command queued on a `multi()` object. -/
inductive Cmd where
  | hSet (key : String) (patch : Hash)
  | rPush (key : String) (tx : Transaction)
  | del (key : String)
  deriving DecidableEq, Repr

/-- One queued command run against the store; `none` when Redis answers it
with an error. -/
def Cmd.apply (s : Store) : Cmd → Option Store
  | .hSet key patch => Wallet.hSet s key patch
  | .rPush key tx => Wallet.rPush s key tx
  | .del key => some (Wallet.del s key)

/-- Redis `MULTI` ... `EXEC`: the queued commands run in order with no other
client in between.  A command that Redis answers with an error is skipped and
the rest still run (Redis has no rollback).  The flag tells whether every
command succeeded. -/
def exec : List Cmd → Store → Store × Bool
  | [], s => (s, true)
  | c :: cs, s =>
    match c.apply s with
    | some s1 => exec cs s1
    | none => ((exec cs s).1, false)

/-! ## Requests and responses -/

/-- The result of `Number.parseFloat`. -/
inductive JsNumber where
  | nan
  | posInf
  | negInf
  | fin (q : ℚ)
  deriving DecidableEq, Repr

/-- Why a validation middleware answered 400. -/
inductive ValidationError where
  | invalidWalletId
  | amountNotANumber
  | invalidAmount
  | invalidReason
  deriving DecidableEq, Repr

/-- The body of the summary response (`wallet.js` lines 304-314). -/
structure Summary where
  wallet_id : String
  balance : Option ℚ
  total_credits : ℚ
  total_debits : ℚ
  transaction_count : Nat
  average_transaction_size : ℚ
  last_transaction_timestamp : Option Nat
  created_at : Option Nat
  last_updated : Option Nat
  deriving DecidableEq, Repr

/-- What a route sends back.  `created` is the 201 answer of the assign route;
the body sent by the transactions route for an empty range has no `count`;
`badRequest` is the 400 answer of a validation middleware, `insufficientFunds`
the 400 answer "Insufficient funds", `notFound` the 404 answer "Wallet not
found", and `serverError` the 500 answer of the error handler after a store
call threw. -/
inductive Response where
  | created (wallet : Hash)
  | balanceOk (wallet : Hash)
  | creditOk (wallet_id : String) (credited_amount new_balance : ℚ)
      (transaction_id : String) (timestamp : Nat)
  | debitOk (wallet_id : String) (debited_amount new_balance : ℚ)
      (transaction_id : String) (timestamp : Nat)
  | transactionsOk (wallet_id : String) (count : Option Nat) (transactions : List Transaction)
  | resetOk (wallet_id : String) (balance : ℚ) (reset_at : Nat)
  | deleteOk (wallet_id : String) (deleted_at : Nat)
  | summaryOk (summary : Summary)
  | exportJson (wallet_id : String) (exported_at : Nat) (count : Nat)
      (transactions : List Transaction)
  | exportCsv (wallet_id : String) (csv : String)
  | badRequest (error : ValidationError)
  | insufficientFunds (current_balance requested_amount : ℚ)
  | notFound
  | serverError
  deriving DecidableEq, Repr

/-- A plan of store failures: `fault i` tells whether the `i`-th store call of
a handler throws. -/
abbrev Faults := Nat → Bool

/-- No store call fails. -/
def noFault : Faults := fun _ => false

/-! ## Validation middleware (`src/middleware/validation.js`) -/

deriving instance DecidableEq for Except

/-- A hexadecimal digit. -/
def isHexDigit (c : Char) : Bool :=
  c.isDigit || ('a' ≤ c && c ≤ 'f') || ('A' ≤ c && c ≤ 'F')

/-- Characters `i`, `i+1`, ... of a UUID: hyphens at positions 8, 13, 18 and 23,
hexadecimal digits elsewhere, 36 characters in all. -/
def uuidShape : List Char → Nat → Bool
  | [], i => i == 36
  | c :: cs, i =>
    (if i == 8 || i == 13 || i == 18 || i == 23 then c == '-' else isHexDigit c)
      && uuidShape cs (i + 1)

/-- The check of `walletIdSchema` (zod `string().uuid()`): five groups of 8, 4,
4, 4 and 12 hexadecimal digits joined by hyphens. -/
def walletIdSchema (wallet_id : String) : Bool := uuidShape wallet_id.data 0

/-- The check of `amountSchema`: a positive, finite number. -/
def amountSchema : JsNumber → Option ℚ
  | .fin q => if 0 < q then some q else none
  | _ => none

/-- The `length` of a JavaScript string: its number of UTF-16 code units. -/
def jsLength (str : String) : Nat :=
  (str.data.map (fun c => if c.val.toNat < 65536 then 1 else 2)).sum

/-- The check of `reasonSchema`: at most 500 code units. -/
def reasonSchema (reason : String) : Bool := jsLength reason ≤ 500

/-- The middleware `validateCredit`.  `parsedAmount` is the value of
`Number.parseFloat(amount)`; `reason` is `none` when the body has no reason.
The result is the number written back to `req.body.amount`, or the reason for
the 400 answer. -/
def validateCredit (wallet_id : String) (parsedAmount : JsNumber) (reason : Option String) :
    Except ValidationError ℚ :=
  if !walletIdSchema wallet_id then .error .invalidWalletId
  else if parsedAmount = .nan then .error .amountNotANumber
  else
    match amountSchema parsedAmount with
    | none => .error .invalidAmount
    | some amount =>
      match reason with
      | some r => if reasonSchema r then .ok amount else .error .invalidReason
      | none => .ok amount

/-- The middleware `validateDebit`, the same checks as `validateCredit`. -/
def validateDebit (wallet_id : String) (parsedAmount : JsNumber) (reason : Option String) :
    Except ValidationError ℚ :=
  if !walletIdSchema wallet_id then .error .invalidWalletId
  else if parsedAmount = .nan then .error .amountNotANumber
  else
    match amountSchema parsedAmount with
    | none => .error .invalidAmount
    | some amount =>
      match reason with
      | some r => if reasonSchema r then .ok amount else .error .invalidReason
      | none => .ok amount

/-! ## Route handlers (`src/routes/wallet.js`) -/

/-- The call `await multi.exec()` as store call number `i` of a handler,
followed by the answer `ok` of the handler.  A batch in which Redis answered a
command with an error makes `exec` throw. -/
def commit (fault : Faults) (i : Nat) (cmds : List Cmd) (ok : Response) (s : Store) :
    Response × Store :=
  if fault i then (.serverError, s)
  else
    match exec cmds s with
    | (s1, true) => (ok, s1)
    | (s1, false) => (.serverError, s1)

/-- Handler of `POST /assign`, "Create a new wallet".  `walletId` is the value
of `uuidv4()` and `now` the value of `Date.now()`. -/
def createWallet (fault : Faults) (walletId : String) (now : Nat) (s : Store) :
    Response × Store :=
  let wallet : Hash :=
    { wallet_id := some walletId, balance := some 0, created_at := some now,
      last_updated := some now }
  if fault 0 then (.serverError, s)
  else
    match hSet s (walletKey walletId) wallet with
    | none => (.serverError, s)
    | some s1 => (.created wallet, s1)

/-- Handler of `GET /balance/:wallet_id`, "Get wallet balance". -/
def getWalletBalance (fault : Faults) (wallet_id : String) (s : Store) : Response :=
  if fault 0 then .serverError
  else
    match hGetAll s (walletKey wallet_id) with
    | none => .serverError
    | some wallet => if wallet.isEmpty then .notFound else .balanceOk wallet

/-- The fields `{ balance, last_updated }` written by the credit, debit and
reset handlers. -/
def balancePatch (balance : ℚ) (now : Nat) : Hash :=
  { wallet_id := none, balance := some balance, created_at := none, last_updated := some now }

/-- The transaction record built by the credit and debit handlers; a request
without a reason gets the empty string. -/
def newTransaction (transaction_id : String) (type : TxType) (amount : ℚ)
    (reason : Option String) (now : Nat) (newBalance : ℚ) : Transaction :=
  { transaction_id := transaction_id, type := type, amount := amount,
    reason := reason.getD "", timestamp := now, balance_after_transaction := newBalance }

/-- The credit handler up to `await multi.exec()`: the read of the wallet and
the batch queued from it, with the answer sent once the batch has run. -/
def creditPlan (fault : Faults) (wallet_id : String) (amount : ℚ) (reason : Option String)
    (now : Nat) (transaction_id : String) (s : Store) : Except Response (List Cmd × Response) :=
  if fault 0 then .error .serverError
  else
    match hGetAll s (walletKey wallet_id) with
    | none => .error .serverError
    | some wallet =>
      if wallet.isEmpty then .error .notFound
      else
        let currentBalance := wallet.balance.getD 0
        let newBalance := currentBalance + amount
        let transaction := newTransaction transaction_id .credit amount reason now newBalance
        .ok ([.hSet (walletKey wallet_id) (balancePatch newBalance now),
              .rPush (txKey wallet_id) transaction],
             .creditOk wallet_id amount newBalance transaction_id now)

/-- Handler of `POST /credit/:wallet_id`, "Credit wallet", after validation. -/
def creditWallet (fault : Faults) (wallet_id : String) (amount : ℚ) (reason : Option String)
    (now : Nat) (transaction_id : String) (s : Store) : Response × Store :=
  match creditPlan fault wallet_id amount reason now transaction_id s with
  | .error r => (r, s)
  | .ok (cmds, ok) => commit fault 1 cmds ok s

/-- The debit handler up to `await multi.exec()`: the read of the wallet, the
balance check, and the batch queued from the balance read. -/
def debitPlan (fault : Faults) (wallet_id : String) (amount : ℚ) (reason : Option String)
    (now : Nat) (transaction_id : String) (s : Store) : Except Response (List Cmd × Response) :=
  if fault 0 then .error .serverError
  else
    match hGetAll s (walletKey wallet_id) with
    | none => .error .serverError
    | some wallet =>
      if wallet.isEmpty then .error .notFound
      else
        let currentBalance := wallet.balance.getD 0
        if currentBalance < amount then .error (.insufficientFunds currentBalance amount)
        else
          let newBalance := currentBalance - amount
          let transaction := newTransaction transaction_id .debit amount reason now newBalance
          .ok ([.hSet (walletKey wallet_id) (balancePatch newBalance now),
                .rPush (txKey wallet_id) transaction],
               .debitOk wallet_id amount newBalance transaction_id now)

/-- Handler of `POST /debit/:wallet_id`, "Debit wallet", after validation. -/
def debitWallet (fault : Faults) (wallet_id : String) (amount : ℚ) (reason : Option String)
    (now : Nat) (transaction_id : String) (s : Store) : Response × Store :=
  match debitPlan fault wallet_id amount reason now transaction_id s with
  | .error r => (r, s)
  | .ok (cmds, ok) => commit fault 1 cmds ok s

/-- The route `POST /credit/:wallet_id`: `validateCredit`, then the handler. -/
def creditRoute (fault : Faults) (wallet_id : String) (parsedAmount : JsNumber)
    (reason : Option String) (now : Nat) (transaction_id : String) (s : Store) :
    Response × Store :=
  match validateCredit wallet_id parsedAmount reason with
  | .error e => (.badRequest e, s)
  | .ok amount => creditWallet fault wallet_id amount reason now transaction_id s

/-- The route `POST /debit/:wallet_id`: `validateDebit`, then the handler. -/
def debitRoute (fault : Faults) (wallet_id : String) (parsedAmount : JsNumber)
    (reason : Option String) (now : Nat) (transaction_id : String) (s : Store) :
    Response × Store :=
  match validateDebit wallet_id parsedAmount reason with
  | .error e => (.badRequest e, s)
  | .ok amount => debitWallet fault wallet_id amount reason now transaction_id s

/-- The expression `Number.parseInt(q) || d`: `parsed` is the value of
`Number.parseInt(q)`, `none` for `NaN`; `NaN` and `0` give the default. -/
def parseIntOr (parsed : Option Int) (d : Int) : Int :=
  match parsed with
  | none => d
  | some n => if n = 0 then d else n

/-- Handler of `GET /transactions/:wallet_id`, "Get transactions".  `limit` and
`offset` are the values of `Number.parseInt` on the query parameters.  The two
indices are computed on exact integers, as JavaScript does while the values are
safe integers (`maxSafeInteger`); an index outside the 64-bit integers is
refused by the store (`lRange`) and the handler answers 500. -/
def getTransactions (fault : Faults) (wallet_id : String) (limit offset : Option Int)
    (s : Store) : Response :=
  let limit1 := parseIntOr limit 20
  let offset1 := parseIntOr offset 0
  if fault 0 then .serverError
  else if !existsKey s (walletKey wallet_id) then .notFound
  else if fault 1 then .serverError
  else
    match lRange s (txKey wallet_id) (-(offset1 + limit1)) (-(offset1 + 1)) with
    | none => .serverError
    | some transactions =>
      if transactions.length = 0 then .transactionsOk wallet_id none []
      else
        let parsedTransactions := transactions.reverse
        .transactionsOk wallet_id (some parsedTransactions.length) parsedTransactions

/-- Handler of `POST /reset/:wallet_id`, "Reset wallet": three store calls, one
after another, none of them in a batch. -/
def resetWallet (fault : Faults) (wallet_id : String) (now : Nat) (s : Store) :
    Response × Store :=
  if fault 0 then (.serverError, s)
  else if !existsKey s (walletKey wallet_id) then (.notFound, s)
  else if fault 1 then (.serverError, s)
  else
    match hSet s (walletKey wallet_id) (balancePatch 0 now) with
    | none => (.serverError, s)
    | some s1 =>
      if fault 2 then (.serverError, s1)
      else (.resetOk wallet_id 0 now, del s1 (txKey wallet_id))

/-- Handler of `POST /delete/:wallet_id`, "Delete wallet".  `now` is the value
of `Date.now()` in the answer. -/
def deleteWallet (fault : Faults) (wallet_id : String) (now : Nat) (s : Store) :
    Response × Store :=
  if fault 0 then (.serverError, s)
  else if !existsKey s (walletKey wallet_id) then (.notFound, s)
  else
    commit fault 1 [.del (walletKey wallet_id), .del (txKey wallet_id)]
      (.deleteOk wallet_id now) s

/-- The variables updated by the `forEach` loop of the summary handler. -/
structure SummaryAcc where
  totalCredits : ℚ
  totalDebits : ℚ
  lastTransactionTimestamp : Option Nat
  deriving DecidableEq, Repr

/-- One iteration of the `forEach` loop (`wallet.js` lines 289-300).  The test
`!lastTransactionTimestamp` holds for `null` and for `0`. -/
def summaryStep (acc : SummaryAcc) (tx : Transaction) : SummaryAcc :=
  let acc1 : SummaryAcc :=
    match tx.type with
    | .credit => { acc with totalCredits := acc.totalCredits + tx.amount }
    | .debit => { acc with totalDebits := acc.totalDebits + tx.amount }
  let newer : Bool :=
    match acc.lastTransactionTimestamp with
    | none => true
    | some last => last == 0 || decide (tx.timestamp > last)
  if newer then { acc1 with lastTransactionTimestamp := some tx.timestamp } else acc1

/-- Handler of `GET /summary/:wallet_id`, "Get wallet summary". -/
def getWalletSummary (fault : Faults) (wallet_id : String) (s : Store) : Response :=
  if fault 0 then .serverError
  else
    match hGetAll s (walletKey wallet_id) with
    | none => .serverError
    | some wallet =>
      if wallet.isEmpty then .notFound
      else if fault 1 then .serverError
      else
        match lRange s (txKey wallet_id) 0 (-1) with
        | none => .serverError
        | some transactions =>
          let acc := transactions.foldl summaryStep
            { totalCredits := 0, totalDebits := 0, lastTransactionTimestamp := none }
          let transactionCount := transactions.length
          let averageTransactionSize : ℚ :=
            if transactionCount > 0 then
              (acc.totalCredits + acc.totalDebits) / (transactionCount : ℚ)
            else 0
          .summaryOk
            { wallet_id := wallet_id
              balance := wallet.balance
              total_credits := acc.totalCredits
              total_debits := acc.totalDebits
              transaction_count := transactionCount
              average_transaction_size := averageTransactionSize
              last_transaction_timestamp := acc.lastTransactionTimestamp
              created_at := wallet.created_at
              last_updated := wallet.last_updated }

/-- The text of a transaction type. -/
def TxType.text : TxType → String
  | .credit => "credit"
  | .debit => "debit"

/-- The double quote character as a string. -/
def dquote : String := String.singleton (Char.ofNat 34)

/-- One CSV row (`wallet.js` line 341).  `render` is the conversion of a number
to a string done by the template. -/
def csvRow (render : ℚ → String) (tx : Transaction) : String :=
  tx.transaction_id ++ "," ++ tx.type.text ++ "," ++ render tx.amount ++ "," ++ dquote
    ++ tx.reason ++ dquote ++ "," ++ toString tx.timestamp ++ ","
    ++ render tx.balance_after_transaction

/-- The header line of the CSV export, with its line feed. -/
def csvHeaders : String :=
  "transaction_id,type,amount,reason,timestamp,balance_after_transaction\n"

/-- Handler of `GET /export/:wallet_id`, "Export transaction history".
`format` is the query parameter, `none` when absent; `now` is `Date.now()`. -/
def exportTransactionHistory (fault : Faults) (render : ℚ → String) (wallet_id : String)
    (format : Option String) (now : Nat) (s : Store) : Response :=
  let format1 : String :=
    match format.map String.toLower with
    | none => "json"
    | some f => if f = "" then "json" else f
  if fault 0 then .serverError
  else if !existsKey s (walletKey wallet_id) then .notFound
  else if fault 1 then .serverError
  else
    match lRange s (txKey wallet_id) 0 (-1) with
    | none => .serverError
    | some transactions =>
      if format1 = "csv" then
        .exportCsv wallet_id (csvHeaders ++ String.intercalate "\n" (transactions.map (csvRow render)))
      else .exportJson wallet_id now transactions.length transactions

/-! ## Sequential runs -/

/-- A request, with the values its handler draws from the clock and from
`uuidv4()`. -/
inductive Op where
  | assign (walletId : String) (now : Nat)
  | balance (wallet_id : String)
  | credit (wallet_id : String) (parsedAmount : JsNumber) (reason : Option String)
      (now : Nat) (transaction_id : String)
  | debit (wallet_id : String) (parsedAmount : JsNumber) (reason : Option String)
      (now : Nat) (transaction_id : String)
  | transactions (wallet_id : String) (limit offset : Option Int)
  | reset (wallet_id : String) (now : Nat)
  | delete (wallet_id : String) (now : Nat)
  | summary (wallet_id : String)
  | exportHistory (wallet_id : String) (format : Option String) (now : Nat)

/-- The store after one request served with no store failure.  The four read
routes issue no write command. -/
def step (op : Op) (s : Store) : Store :=
  match op with
  | .assign walletId now => (createWallet noFault walletId now s).2
  | .credit wallet_id parsedAmount reason now transaction_id =>
    (creditRoute noFault wallet_id parsedAmount reason now transaction_id s).2
  | .debit wallet_id parsedAmount reason now transaction_id =>
    (debitRoute noFault wallet_id parsedAmount reason now transaction_id s).2
  | .reset wallet_id now => (resetWallet noFault wallet_id now s).2
  | .delete wallet_id now => (deleteWallet noFault wallet_id now s).2
  | .balance _ => s
  | .transactions _ _ _ => s
  | .summary _ => s
  | .exportHistory _ _ _ => s

/-- The store after a sequence of requests served one after another. -/
def run (ops : List Op) (s : Store) : Store := ops.foldl (fun st op => step op st) s

/-- What is assumed of the values drawn by a request: `uuidv4()` returns a UUID
under which no wallet is stored. -/
def Op.admissible (s : Store) : Op → Prop
  | .assign walletId _ => walletIdSchema walletId = true ∧ s (walletKey walletId) = none
  | _ => True

/-- The store states reached from the empty store by requests served one after
another. -/
inductive Reachable : Store → Prop where
  | empty : Reachable emptyStore
  | next {s : Store} (op : Op) : Reachable s → op.admissible s → Reachable (step op s)

/-! ## Predicates on stores -/

/-- Every balance stored in a hash of the keyspace is at least 0. -/
def NonNegBalances (s : Store) : Prop :=
  ∀ key h b, s key = some (.hash h) → h.balance = some b → 0 ≤ b

/-- A hash patch that writes no negative balance. -/
def Hash.nonNegPatch (p : Hash) : Prop := ∀ b, p.balance = some b → 0 ≤ b

/-- A queued command that writes no negative balance. -/
def Cmd.nonNeg : Cmd → Prop
  | .hSet _ p => p.nonNegPatch
  | _ => True

/-- The wallet `wallet_id` has the transaction list `h`, oldest first: its
list key holds `h`, or holds nothing and `h` is empty. -/
def HasHistory (s : Store) (wallet_id : String) (h : List Transaction) : Prop :=
  s (txKey wallet_id) = some (.list h) ∨ (s (txKey wallet_id) = none ∧ h = [])

/-- The transaction list stored for `wallet_id`, oldest first; empty when the
list key holds no list. -/
def storedHistory (s : Store) (wallet_id : String) : List Transaction :=
  match s (txKey wallet_id) with
  | some (.list l) => l
  | _ => []

/-- The amount of a transaction with its sign: added for a credit, subtracted
for a debit. -/
def signedAmount (tx : Transaction) : ℚ :=
  match tx.type with
  | .credit => tx.amount
  | .debit => -tx.amount

/-- The balances obtained by replaying a transaction list from `start`, one
per entry. -/
def replay : ℚ → List Transaction → List ℚ
  | _, [] => []
  | start, tx :: rest => (start + signedAmount tx) :: replay (start + signedAmount tx) rest

/-- The replay property of a store: for every wallet record, replaying its
stored list from 0 gives the `balance_after_transaction` of every entry, and
the stored balance is the sum of the signed amounts. -/
def ReplayConsistent (s : Store) : Prop :=
  ∀ wallet_id h, s (walletKey wallet_id) = some (.hash h) →
    replay 0 (storedHistory s wallet_id)
        = (storedHistory s wallet_id).map (fun tx => tx.balance_after_transaction)
      ∧ h.balance = some ((storedHistory s wallet_id).map signedAmount).sum

/-- A sequence of requests each of which is admissible in the store it is
served in. -/
def admissibleRun : List Op → Store → Prop
  | [], _ => True
  | op :: rest, s => op.admissible s ∧ admissibleRun rest (step op s)

/-- A well-formed wallet id used in the worked examples. -/
def sampleId : String := "123e4567-e89b-42d3-a456-426614174000"

/-- The key holds a hash. -/
def IsHash (s : Store) (key : String) : Prop := ∃ w, s key = some (.hash w)

/-- Every hash of the keyspace is stored under the wallet key of a well-formed
wallet id. -/
def HashKeysAreWalletKeys (s : Store) : Prop :=
  ∀ key, IsHash s key → ∃ u, walletIdSchema u = true ∧ key = walletKey u

/-- The keys written by the `hSet` commands of a batch. -/
def hSetKeys : List Cmd → List String
  | [] => []
  | .hSet key _ :: rest => key :: hSetKeys rest
  | _ :: rest => hSetKeys rest

/-- Every transaction list is stored for a wallet that has a record. -/
def ListsBelongToWallets (s : Store) : Prop :=
  ∀ u l, s (txKey u) = some (.list l) → IsHash s (walletKey u)

/-- The invariant of the ledger: hashes are wallet records, lists belong to
wallet records, and every list replays to the balance of its record. -/
def Ledger (s : Store) : Prop :=
  HashKeysAreWalletKeys s ∧ ListsBelongToWallets s ∧ ReplayConsistent s

/-- The transaction list held by a stored value, empty for anything else. -/
def listOf : Option Value → List Transaction
  | some (.list l) => l
  | _ => []

/-- A request whose wallet id, when it is a delete, is well formed. -/
def Op.deleteIdWellFormed : Op → Prop
  | .delete wallet_id _ => walletIdSchema wallet_id = true
  | _ => True

/-- The fault plan in which exactly the store call number `n` throws. -/
def failAt (n : Nat) : Faults := fun i => i == n

/-- An amount that is not a positive finite number: `NaN` (the amount could not
be parsed), an infinity, or a number that is zero or negative. -/
def JsNumber.notPositiveFinite : JsNumber → Prop
  | .fin q => q ≤ 0
  | _ => True

/-- The key holds a list. -/
def IsList (s : Store) (key : String) : Prop := ∃ l, s key = some (.list l)

/-- Every list of the keyspace is stored under the list key of a well-formed
wallet id. -/
def ListKeysAreTxKeys (s : Store) : Prop :=
  ∀ key, IsList s key → ∃ u, walletIdSchema u = true ∧ key = txKey u

/-- A second well-formed wallet id used in the worked examples. -/
def otherId : String := "00000000-0000-4000-8000-000000000001"

/-- The names of the six columns of the CSV export, in order. -/
def csvColumns : List String :=
  ["transaction_id", "type", "amount", "reason", "timestamp", "balance_after_transaction"]

/-- The six fields of a transaction as they appear in a CSV row, in column
order, the reason wrapped in double quotes. -/
def csvFields (render : ℚ → String) (tx : Transaction) : List String :=
  [tx.transaction_id, tx.type.text, render tx.amount, dquote ++ tx.reason ++ dquote,
    toString tx.timestamp, render tx.balance_after_transaction]

/-- The transactions carried by an answer of the transactions route or of the
export route in JSON; empty for any other answer. -/
def Response.transactions : Response → List Transaction
  | .transactionsOk _ _ l => l
  | .exportJson _ _ _ l => l
  | _ => []

/-- A store holding one wallet credited 10, 20 and 30. -/
def walletOf3 : Store :=
  run [.assign sampleId 1, .credit sampleId (.fin 10) none 2 "t1",
    .credit sampleId (.fin 20) none 3 "t2", .credit sampleId (.fin 30) none 4 "t3"] emptyStore

/-- The `last_transaction_timestamp` of a summary answer. -/
def Response.lastTransactionTimestamp : Response → Option Nat
  | .summaryOk sm => sm.last_transaction_timestamp
  | _ => none

/-- The answer is a summary. -/
def Response.isSummary : Response → Bool
  | .summaryOk _ => true
  | _ => false

/-- Every wallet record names the wallet id of its key and has a balance. -/
def RecordsComplete (s : Store) : Prop :=
  ∀ u w, s (walletKey u) = some (.hash w) → w.wallet_id = some u ∧ w.balance.isSome = true

/-- Between two stores, the record and the transaction list of every wallet
other than `wallet_id` are the same. -/
def SameElsewhere (s s1 : Store) (wallet_id : String) : Prop :=
  ∀ other, other ≠ wallet_id → IsHash s (walletKey other) →
    s1 (walletKey other) = s (walletKey other) ∧ s1 (txKey other) = s (txKey other)

/-- A store holding two wallets, the first credited 100. -/
def twoWallets : Store :=
  run [.assign sampleId 1, .credit sampleId (.fin 100) none 2 "t0", .assign otherId 3]
    emptyStore

/-- The store after a wallet is created and credited 100 and the delete route
is then called with the wallet id followed by `:tx`. -/
def historyWiped : Store :=
  run [.assign sampleId 1, .credit sampleId (.fin 100) none 2 "t1",
    .delete (sampleId ++ ":tx") 3] emptyStore

/-- The page of size `k` number `i` (from 0) of a wallet: the transactions
answered by the transactions route for limit `k` and offset `i * k`. -/
def rangePage (s : Store) (wallet_id : String) (k i : Nat) : List Transaction :=
  (getTransactions noFault wallet_id (some (k : Int)) (some ((i * k : Nat) : Int)) s).transactions

/-- What a client collects that reads the pages number `i`, `i + 1`, ... one
after another and stops at the first empty page; `fuel` bounds the number of
pages read. -/
def readPages (page : Nat → List Transaction) : Nat → Nat → List Transaction
  | 0, _ => []
  | fuel + 1, i => if page i = [] then [] else page i ++ readPages page fuel (i + 1)

/-- A parsed query parameter that is `NaN` or a safe integer, one between
-(2^53 - 1) and 2^53 - 1. -/
def safeParameter (parsed : Option Int) : Prop :=
  ∀ n, parsed = some n → -maxSafeInteger ≤ n ∧ n ≤ maxSafeInteger

/-- A limit far outside the 64-bit integers, 10^21. -/
def hugeLimit : Int := 1000000000000000000000

/-- A page size far outside the 64-bit integers, 10^21. -/
def hugePageSize : Nat := 1000000000000000000000

/-- A store holding one wallet credited 10, debited 4 and credited 1, each time
with a reason. -/
def walletWithReasons : Store :=
  run [.assign sampleId 1, .credit sampleId (.fin 10) (some "salary") 2 "t1",
    .debit sampleId (.fin 4) (some "rent") 3 "t2",
    .credit sampleId (.fin 1) (some "gift") 4 "t3"] emptyStore

/-! ## Concurrent requests

Node runs a handler without interruption between two `await`s, so two requests
served concurrently interleave at their store calls.  The credit and debit
handlers make two store calls: the read `hGetAll`, then `multi.exec()` with the
batch queued from what was read. -/

/-- A credit or debit request in flight: no store call made yet, or the read
answered and the batch queued, or the request answered. -/
inductive InFlight where
  | start (plan : Store → Except Response (List Cmd × Response))
  | queued (cmds : List Cmd) (ok : Response)
  | answered (r : Response)

/-- The next store call of a request in flight is answered by the store. -/
def InFlight.advance (t : InFlight) (s : Store) : InFlight × Store :=
  match t with
  | .start plan =>
    match plan s with
    | .error r => (.answered r, s)
    | .ok (cmds, ok) => (.queued cmds ok, s)
  | .queued cmds ok => (.answered (commit noFault 1 cmds ok s).1, (commit noFault 1 cmds ok s).2)
  | .answered r => (.answered r, s)

/-- The answer sent to a request, once it has been answered. -/
def InFlight.response : InFlight → Option Response
  | .answered r => some r
  | _ => none

/-- Two requests served concurrently.  The schedule tells, for each store call
in the order the store answers them, which request made it: `false` the first
request, `true` the second. -/
def interleave : List Bool → InFlight × InFlight × Store → InFlight × InFlight × Store
  | [], st => st
  | false :: rest, (a, b, s) => interleave rest ((a.advance s).1, b, (a.advance s).2)
  | true :: rest, (a, b, s) => interleave rest (a, (b.advance s).1, (b.advance s).2)

/-- A store holding one wallet with balance 100. -/
def walletOf100 : Store :=
  run [.assign sampleId 1, .credit sampleId (.fin 100) none 2 "t0"] emptyStore

/-! ## Keys -/

theorem walletKey_ne_txKey (a : String) : walletKey a ≠ txKey a := by
  intro h
  have hlen := congrArg String.length h
  simp [walletKey, txKey, String.length_append] at hlen
  exact absurd hlen (by decide)

theorem txKey_ne_walletKey (a : String) : txKey a ≠ walletKey a :=
  fun h => walletKey_ne_txKey a h.symm

/-! ## Balances never go negative -/

theorem nonNeg_emptyStore : NonNegBalances emptyStore := by
  intro key h b hk
  simp [emptyStore] at hk

theorem merge_balance (old p : Hash) :
    (old.merge p).balance = p.balance.orElse (fun _ => old.balance) := rfl

theorem hSet_nonNeg {s s1 : Store} {key : String} {p : Hash} (hs : NonNegBalances s)
    (hp : p.nonNegPatch) (h : hSet s key p = some s1) : NonNegBalances s1 := by
  intro k h1 b hk hb
  unfold hSet at h
  by_cases hkk : k = key
  · subst hkk
    cases hsk : s k with
    | none =>
      rw [hsk] at h
      simp only [Option.some.injEq] at h
      subst h
      simp only [Function.update_same, Option.some.injEq, Value.hash.injEq] at hk
      subst hk
      rw [merge_balance] at hb
      cases hpb : p.balance with
      | none => rw [hpb] at hb; simp [Hash.empty] at hb
      | some b1 =>
        rw [hpb] at hb
        simp only [Option.orElse, Option.some.injEq] at hb
        exact hb ▸ hp b1 hpb
    | some v =>
      cases v with
      | list l => rw [hsk] at h; simp at h
      | hash h0 =>
        rw [hsk] at h
        simp only [Option.some.injEq] at h
        subst h
        simp only [Function.update_same, Option.some.injEq, Value.hash.injEq] at hk
        subst hk
        rw [merge_balance] at hb
        cases hpb : p.balance with
        | none =>
          rw [hpb] at hb
          exact hs k h0 b hsk hb
        | some b1 =>
          rw [hpb] at hb
          simp only [Option.orElse, Option.some.injEq] at hb
          exact hb ▸ hp b1 hpb
  · have hsame : s1 k = s k := by
      cases hsk : s key with
      | none =>
        rw [hsk] at h
        simp only [Option.some.injEq] at h
        subst h
        exact Function.update_noteq hkk _ _
      | some v =>
        cases v with
        | list l => rw [hsk] at h; simp at h
        | hash h0 =>
          rw [hsk] at h
          simp only [Option.some.injEq] at h
          subst h
          exact Function.update_noteq hkk _ _
    rw [hsame] at hk
    exact hs k h1 b hk hb

theorem rPush_nonNeg {s s1 : Store} {key : String} {tx : Transaction} (hs : NonNegBalances s)
    (h : rPush s key tx = some s1) : NonNegBalances s1 := by
  intro k h1 b hk hb
  unfold rPush at h
  by_cases hkk : k = key
  · subst hkk
    cases hsk : s k with
    | none =>
      rw [hsk] at h
      simp only [Option.some.injEq] at h
      subst h
      simp at hk
    | some v =>
      cases v with
      | hash h0 => rw [hsk] at h; simp at h
      | list l =>
        rw [hsk] at h
        simp only [Option.some.injEq] at h
        subst h
        simp at hk
  · have hsame : s1 k = s k := by
      cases hsk : s key with
      | none =>
        rw [hsk] at h
        simp only [Option.some.injEq] at h
        subst h
        exact Function.update_noteq hkk _ _
      | some v =>
        cases v with
        | hash h0 => rw [hsk] at h; simp at h
        | list l =>
          rw [hsk] at h
          simp only [Option.some.injEq] at h
          subst h
          exact Function.update_noteq hkk _ _
    rw [hsame] at hk
    exact hs k h1 b hk hb

theorem del_nonNeg {s : Store} (key : String) (hs : NonNegBalances s) :
    NonNegBalances (del s key) := by
  intro k h1 b hk hb
  unfold del at hk
  by_cases hkk : k = key
  · subst hkk
    simp at hk
  · rw [Function.update_noteq hkk] at hk
    exact hs k h1 b hk hb

theorem apply_nonNeg {s s1 : Store} {c : Cmd} (hs : NonNegBalances s) (hc : c.nonNeg)
    (h : c.apply s = some s1) : NonNegBalances s1 := by
  cases c with
  | hSet key p => exact hSet_nonNeg hs hc h
  | rPush key tx => exact rPush_nonNeg hs h
  | del key =>
    simp only [Cmd.apply, Option.some.injEq] at h
    exact h ▸ del_nonNeg key hs

theorem exec_nonNeg (cmds : List Cmd) :
    ∀ s : Store, NonNegBalances s → (∀ c ∈ cmds, c.nonNeg) → NonNegBalances (exec cmds s).1 := by
  induction cmds with
  | nil => intro s hs _; exact hs
  | cons c cs ih =>
    intro s hs hc
    have hcs : ∀ c1 ∈ cs, c1.nonNeg := fun c1 h1 => hc c1 (List.mem_cons_of_mem _ h1)
    unfold exec
    cases hap : c.apply s with
    | none => exact ih s hs hcs
    | some s1 => exact ih s1 (apply_nonNeg hs (hc c (List.mem_cons_self _ _)) hap) hcs

theorem commit_nonNeg (fault : Faults) (i : Nat) (cmds : List Cmd) (ok : Response) (s : Store)
    (hs : NonNegBalances s) (hc : ∀ c ∈ cmds, c.nonNeg) :
    NonNegBalances (commit fault i cmds ok s).2 := by
  unfold commit
  split
  · exact hs
  · have h := exec_nonNeg cmds s hs hc
    split <;> rename_i heq <;> rw [heq] at h <;> exact h

theorem hGetAll_balance_nonNeg {s : Store} {key : String} {wallet : Hash}
    (hs : NonNegBalances s) (h : hGetAll s key = some wallet) : 0 ≤ wallet.balance.getD 0 := by
  unfold hGetAll at h
  cases hsk : s key with
  | none =>
    rw [hsk] at h
    simp only [Option.some.injEq] at h
    subst h
    simp [Hash.empty]
  | some v =>
    cases v with
    | list l => rw [hsk] at h; simp at h
    | hash h0 =>
      rw [hsk] at h
      simp only [Option.some.injEq] at h
      subst h
      cases hb : h0.balance with
      | none => simp
      | some b => simpa using hs key h0 b hsk hb

theorem validateCredit_pos {wallet_id : String} {parsedAmount : JsNumber}
    {reason : Option String} {amount : ℚ}
    (h : validateCredit wallet_id parsedAmount reason = .ok amount) : 0 < amount := by
  unfold validateCredit at h
  split at h
  · simp at h
  · split at h
    · simp at h
    · cases parsedAmount with
      | fin q =>
        by_cases hq : 0 < q
        · have hamt : amount = q := by
            cases reason with
            | none => simp [amountSchema, hq] at h; exact h.symm
            | some r =>
              simp only [amountSchema, hq, if_true] at h
              split at h
              · simp at h; exact h.symm
              · simp at h
          exact hamt ▸ hq
        · simp [amountSchema, hq] at h
      | nan => simp [amountSchema] at h
      | posInf => simp [amountSchema] at h
      | negInf => simp [amountSchema] at h

theorem validateDebit_eq (wallet_id : String) (parsedAmount : JsNumber)
    (reason : Option String) :
    validateDebit wallet_id parsedAmount reason = validateCredit wallet_id parsedAmount reason :=
  rfl

theorem createWallet_nonNeg (fault : Faults) (walletId : String) (now : Nat) (s : Store)
    (hs : NonNegBalances s) : NonNegBalances (createWallet fault walletId now s).2 := by
  unfold createWallet
  simp only
  split
  · exact hs
  · split
    · exact hs
    · rename_i s1 h
      refine hSet_nonNeg hs ?_ h
      intro b hb
      simp only [Option.some.injEq] at hb
      exact hb ▸ le_refl 0

theorem creditWallet_nonNeg (fault : Faults) (wallet_id : String) (amount : ℚ)
    (reason : Option String) (now : Nat) (transaction_id : String) (s : Store)
    (hs : NonNegBalances s) (ha : 0 < amount) :
    NonNegBalances (creditWallet fault wallet_id amount reason now transaction_id s).2 := by
  unfold creditWallet
  cases hplan : creditPlan fault wallet_id amount reason now transaction_id s with
  | error r => exact hs
  | ok pr =>
    obtain ⟨cmds, ok⟩ := pr
    refine commit_nonNeg fault 1 cmds ok s hs ?_
    unfold creditPlan at hplan
    split at hplan
    · simp at hplan
    · split at hplan
      · simp at hplan
      · rename_i wallet hget
        split at hplan
        · simp at hplan
        · simp only [Except.ok.injEq, Prod.mk.injEq] at hplan
          obtain ⟨hc, _⟩ := hplan
          subst hc
          have h0 := hGetAll_balance_nonNeg hs hget
          intro c hcm
          simp only [List.mem_cons, List.mem_singleton, List.not_mem_nil, or_false] at hcm
          rcases hcm with rfl | rfl
          · intro b hb
            simp only [balancePatch, Option.some.injEq] at hb
            rw [← hb]
            linarith
          · trivial

theorem debitWallet_nonNeg (fault : Faults) (wallet_id : String) (amount : ℚ)
    (reason : Option String) (now : Nat) (transaction_id : String) (s : Store)
    (hs : NonNegBalances s) :
    NonNegBalances (debitWallet fault wallet_id amount reason now transaction_id s).2 := by
  unfold debitWallet
  cases hplan : debitPlan fault wallet_id amount reason now transaction_id s with
  | error r => exact hs
  | ok pr =>
    obtain ⟨cmds, ok⟩ := pr
    refine commit_nonNeg fault 1 cmds ok s hs ?_
    unfold debitPlan at hplan
    split at hplan
    · simp at hplan
    · split at hplan
      · simp at hplan
      · split at hplan
        · simp at hplan
        · simp only at hplan
          split at hplan
          · simp at hplan
          · rename_i hlt
            simp only [Except.ok.injEq, Prod.mk.injEq] at hplan
            obtain ⟨hc, _⟩ := hplan
            subst hc
            intro c hcm
            simp only [List.mem_cons, List.mem_singleton, List.not_mem_nil, or_false] at hcm
            rcases hcm with rfl | rfl
            · intro b hb
              simp only [balancePatch, Option.some.injEq] at hb
              rw [← hb]
              linarith
            · trivial

theorem resetWallet_nonNeg (fault : Faults) (wallet_id : String) (now : Nat) (s : Store)
    (hs : NonNegBalances s) : NonNegBalances (resetWallet fault wallet_id now s).2 := by
  have hp : Hash.nonNegPatch (balancePatch 0 now) := by
    intro b hb
    simp only [balancePatch, Option.some.injEq] at hb
    exact hb ▸ le_refl 0
  unfold resetWallet
  split
  · exact hs
  · split
    · exact hs
    · split
      · exact hs
      · split
        · exact hs
        · rename_i s1 h
          split
          · exact hSet_nonNeg hs hp h
          · exact del_nonNeg _ (hSet_nonNeg hs hp h)

theorem deleteWallet_nonNeg (fault : Faults) (wallet_id : String) (now : Nat) (s : Store)
    (hs : NonNegBalances s) : NonNegBalances (deleteWallet fault wallet_id now s).2 := by
  unfold deleteWallet
  split
  · exact hs
  · split
    · exact hs
    · refine commit_nonNeg fault 1 _ _ s hs ?_
      intro c hcm
      simp only [List.mem_cons, List.mem_singleton, List.not_mem_nil, or_false] at hcm
      rcases hcm with rfl | rfl <;> trivial

theorem step_nonNeg (op : Op) (s : Store) (hs : NonNegBalances s) :
    NonNegBalances (step op s) := by
  cases op with
  | assign walletId now => exact createWallet_nonNeg noFault walletId now s hs
  | credit wallet_id parsedAmount reason now transaction_id =>
    simp only [step, creditRoute]
    cases hv : validateCredit wallet_id parsedAmount reason with
    | error e => exact hs
    | ok amount =>
      exact creditWallet_nonNeg noFault wallet_id amount reason now transaction_id s hs
        (validateCredit_pos hv)
  | debit wallet_id parsedAmount reason now transaction_id =>
    simp only [step, debitRoute]
    cases hv : validateDebit wallet_id parsedAmount reason with
    | error e => exact hs
    | ok amount =>
      exact debitWallet_nonNeg noFault wallet_id amount reason now transaction_id s hs
  | reset wallet_id now => exact resetWallet_nonNeg noFault wallet_id now s hs
  | delete wallet_id now => exact deleteWallet_nonNeg noFault wallet_id now s hs
  | balance _ => exact hs
  | transactions _ _ _ => exact hs
  | summary _ => exact hs
  | exportHistory _ _ _ => exact hs

theorem run_nonNeg (ops : List Op) :
    ∀ s : Store, NonNegBalances s → NonNegBalances (run ops s) := by
  induction ops with
  | nil => intro s hs; exact hs
  | cons op rest ih => intro s hs; exact ih (step op s) (step_nonNeg op s hs)

theorem reachable_run (ops : List Op) :
    ∀ s : Store, Reachable s → admissibleRun ops s → Reachable (run ops s) := by
  induction ops with
  | nil => intro s hs _; exact hs
  | cons op rest ih =>
    intro s hs hadm
    exact ih (step op s) (Reachable.next op hs hadm.1) hadm.2

theorem reachable_nonNeg {s : Store} (h : Reachable s) : NonNegBalances s := by
  induction h with
  | empty => exact nonNeg_emptyStore
  | next op _ _ ih => exact step_nonNeg op _ ih

/-! ## Ranges of the transaction list -/


theorem lRangeItems_window (h : List Transaction) (L O : Nat) (hL : 1 ≤ L) :
    lRangeItems h (-((O : Int) + (L : Int))) (-((O : Int) + 1))
      = (h.take (h.length - O)).drop (h.length - O - L) := by
  unfold lRangeItems
  have h1 : (-((O : Int) + (L : Int)) < 0) := by omega
  have h2 : (-((O : Int) + 1) < 0) := by omega
  simp only [h1, h2, if_true]
  by_cases hO : h.length ≤ O
  · have hz : h.length - O = 0 := by omega
    rw [if_pos]
    · simp [hz]
    · left
      split <;> omega
  · have hO1 : O < h.length := by omega
    rw [if_neg]
    · have hstop : ¬ ((h.length : Int) + -((O : Int) + 1) ≥ (h.length : Int)) := by omega
      simp only [hstop, if_false]
      rw [List.drop_take]
      by_cases hs : (h.length : Int) + -((O : Int) + (L : Int)) < 0
      · simp only [hs, if_true]
        have e1 : h.length - O - L = 0 := by omega
        have e2 : ((h.length : Int) + -((O : Int) + 1) - 0 + 1).toNat = h.length - O := by omega
        rw [e2, e1, Int.toNat_zero, Nat.sub_zero]
      · simp only [hs, if_false]
        have e1 : ((h.length : Int) + -((O : Int) + (L : Int))).toNat = h.length - O - L := by omega
        have e2 : ((h.length : Int) + -((O : Int) + 1) - ((h.length : Int) + -((O : Int) + (L : Int))) + 1).toNat
            = h.length - O - (h.length - O - L) := by omega
        rw [e1, e2]
    · intro hc
      rcases hc with hc | hc
      · split at hc <;> omega
      · split at hc <;> omega

theorem lRangeItems_page (h : List Transaction) (limit offset : Int) (hl : 1 ≤ limit)
    (ho : 0 ≤ offset) :
    (lRangeItems h (-(offset + limit)) (-(offset + 1))).reverse
      = (h.reverse.drop offset.toNat).take limit.toNat := by
  obtain ⟨L, rfl⟩ := Int.eq_ofNat_of_zero_le (le_trans (by decide) hl)
  obtain ⟨O, rfl⟩ := Int.eq_ofNat_of_zero_le ho
  have hL : 1 ≤ L := by omega
  rw [lRangeItems_window h L O hL]
  simp only [Int.toNat_ofNat]
  rw [List.drop_reverse, List.take_reverse, List.length_take]
  congr 2
  omega

theorem lRangeItems_all (h : List Transaction) : lRangeItems h 0 (-1) = h := by
  unfold lRangeItems
  simp only [lt_self_iff_false, if_false, show ((-1 : Int) < 0) from by decide, if_true]
  by_cases hn : h.length = 0
  · have hnil : h = [] := List.length_eq_zero.mp hn
    subst hnil
    simp
  · rw [if_neg (by omega)]
    have hstop : ¬ ((h.length : Int) + -1 ≥ (h.length : Int)) := by omega
    simp only [hstop, if_false]
    have e : ((h.length : Int) + -1 - 0 + 1).toNat = h.length := by omega
    rw [e, Int.toNat_zero, List.drop_zero, List.take_length]

theorem isInt64_of_bounds {n : Int} (h1 : -9223372036854775808 ≤ n)
    (h2 : n ≤ 9223372036854775807) : isInt64 n = true := by
  simp [isInt64, h1, h2]

theorem lRange_of_history {s : Store} {wallet_id : String} {h : List Transaction}
    (hh : HasHistory s wallet_id h) (start stop : Int) (hstart : isInt64 start = true)
    (hstop : isInt64 stop = true) :
    lRange s (txKey wallet_id) start stop = some (lRangeItems h start stop) := by
  unfold lRange
  rw [hstart, hstop]
  rcases hh with hl | ⟨hn, rfl⟩
  · rw [hl]
    rfl
  · rw [hn]
    simp [lRangeItems]

theorem lRange_all_of_history {s : Store} {wallet_id : String} {h : List Transaction}
    (hh : HasHistory s wallet_id h) : lRange s (txKey wallet_id) 0 (-1) = some h := by
  rw [lRange_of_history hh 0 (-1) (by decide) (by decide), lRangeItems_all]

theorem lRange_out_of_range (s : Store) (key : String) (start stop : Int)
    (h : isInt64 start = false ∨ isInt64 stop = false) : lRange s key start stop = none := by
  unfold lRange
  rcases h with h | h <;> simp [h]

theorem getTransactions_page (s : Store) (wallet_id : String) (w : Hash)
    (h : List Transaction) (limit offset : Int)
    (hw : s (walletKey wallet_id) = some (.hash w)) (hh : HasHistory s wallet_id h)
    (hl : 1 ≤ limit) (ho : 0 ≤ offset) (hb : offset + limit ≤ 9223372036854775808) :
    getTransactions noFault wallet_id (some limit) (some offset) s
      = .transactionsOk wallet_id
          (if (h.reverse.drop offset.toNat).take limit.toNat = [] then none
            else some ((h.reverse.drop offset.toNat).take limit.toNat).length)
          ((h.reverse.drop offset.toNat).take limit.toNat) := by
  have hstart : isInt64 (-(offset + limit)) = true := isInt64_of_bounds (by omega) (by omega)
  have hstop : isInt64 (-(offset + 1)) = true := isInt64_of_bounds (by omega) (by omega)
  have hlim : parseIntOr (some limit) 20 = limit := by
    simp only [parseIntOr]
    rw [if_neg (by omega)]
  have hoff : parseIntOr (some offset) 0 = offset := by
    simp only [parseIntOr]
    split <;> omega
  have hpage := lRangeItems_page h limit offset hl ho
  unfold getTransactions
  simp only [hlim, hoff, noFault, existsKey, hw, lRange_of_history hh _ _ hstart hstop,
    Bool.false_eq_true, if_false, Option.isSome_some, Bool.not_true]
  rw [← hpage]
  generalize lRangeItems h (-(offset + limit)) (-(offset + 1)) = page
  cases page <;> simp

/-! ## Summary totals -/

theorem foldl_summaryStep_credits (l : List Transaction) :
    ∀ acc : SummaryAcc, (l.foldl summaryStep acc).totalCredits
      = acc.totalCredits
        + ((l.filter (fun tx => tx.type = .credit)).map (fun tx => tx.amount)).sum := by
  induction l with
  | nil => intro acc; simp
  | cons tx rest ih =>
    intro acc
    rw [List.foldl_cons, ih]
    cases hty : tx.type <;> simp only [summaryStep, hty] <;> split <;>
      simp [List.filter_cons, hty, add_assoc]

theorem foldl_summaryStep_debits (l : List Transaction) :
    ∀ acc : SummaryAcc, (l.foldl summaryStep acc).totalDebits
      = acc.totalDebits
        + ((l.filter (fun tx => tx.type = .debit)).map (fun tx => tx.amount)).sum := by
  induction l with
  | nil => intro acc; simp
  | cons tx rest ih =>
    intro acc
    rw [List.foldl_cons, ih]
    cases hty : tx.type <;> simp only [summaryStep, hty] <;> split <;>
      simp [List.filter_cons, hty, add_assoc]

/-! ## Hashes are wallet records -/

theorem uuidShape_length (cs : List Char) : ∀ i, uuidShape cs i = true → cs.length + i = 36 := by
  induction cs with
  | nil =>
    intro i h
    simp only [uuidShape, beq_iff_eq] at h
    simpa using h
  | cons c rest ih =>
    intro i h
    simp only [uuidShape, Bool.and_eq_true] at h
    have := ih (i + 1) h.2
    simp only [List.length_cons]
    omega

theorem walletIdSchema_length {u : String} (h : walletIdSchema u = true) : u.length = 36 := by
  have hlen := uuidShape_length u.data 0 h
  rw [Nat.add_zero] at hlen
  cases u
  exact hlen

theorem walletKey_injective {a b : String} (h : walletKey a = walletKey b) : a = b := by
  have hd := congrArg String.data h
  simp only [walletKey, String.data_append, List.append_cancel_left_eq] at hd
  exact String.ext hd

theorem txKey_eq_walletKey (a : String) : txKey a = walletKey (a ++ ":tx") := by
  simp [txKey, walletKey, String.append_assoc]

theorem txKey_not_hash {s : Store} {wallet_id : String} (hk : HashKeysAreWalletKeys s)
    (hid : walletIdSchema wallet_id = true) : ¬ IsHash s (txKey wallet_id) := by
  intro hh
  obtain ⟨u, hu, hkey⟩ := hk _ hh
  rw [txKey_eq_walletKey] at hkey
  have hlen := congrArg String.length (walletKey_injective hkey)
  rw [String.length_append, walletIdSchema_length hid, walletIdSchema_length hu] at hlen
  exact absurd hlen (by decide)

theorem hSet_isHash {s s1 : Store} {key : String} {p : Hash} (h : hSet s key p = some s1)
    {k : String} (hk : IsHash s1 k) : k = key ∨ IsHash s k := by
  by_cases hkk : k = key
  · exact Or.inl hkk
  · right
    unfold hSet at h
    obtain ⟨w, hw⟩ := hk
    cases hsk : s key with
    | none =>
      rw [hsk] at h
      simp only [Option.some.injEq] at h
      subst h
      rw [Function.update_noteq hkk] at hw
      exact ⟨w, hw⟩
    | some v =>
      cases v with
      | list l => rw [hsk] at h; simp at h
      | hash h0 =>
        rw [hsk] at h
        simp only [Option.some.injEq] at h
        subst h
        rw [Function.update_noteq hkk] at hw
        exact ⟨w, hw⟩

theorem hSet_existing_isHash {s s1 : Store} {key : String} {p : Hash}
    (h : hSet s key p = some s1) (hex : existsKey s key = true) : IsHash s key := by
  unfold hSet at h
  unfold existsKey at hex
  cases hsk : s key with
  | none => rw [hsk] at hex; simp at hex
  | some v =>
    cases v with
    | list l => rw [hsk] at h; simp at h
    | hash h0 => exact ⟨h0, hsk⟩

theorem rPush_isHash {s s1 : Store} {key : String} {tx : Transaction}
    (h : rPush s key tx = some s1) {k : String} (hk : IsHash s1 k) : IsHash s k := by
  unfold rPush at h
  obtain ⟨w, hw⟩ := hk
  by_cases hkk : k = key
  · subst hkk
    cases hsk : s k with
    | none =>
      rw [hsk] at h
      simp only [Option.some.injEq] at h
      subst h
      simp at hw
    | some v =>
      cases v with
      | hash h0 => exact ⟨h0, hsk⟩
      | list l =>
        rw [hsk] at h
        simp only [Option.some.injEq] at h
        subst h
        simp at hw
  · cases hsk : s key with
    | none =>
      rw [hsk] at h
      simp only [Option.some.injEq] at h
      subst h
      rw [Function.update_noteq hkk] at hw
      exact ⟨w, hw⟩
    | some v =>
      cases v with
      | hash h0 => rw [hsk] at h; simp at h
      | list l =>
        rw [hsk] at h
        simp only [Option.some.injEq] at h
        subst h
        rw [Function.update_noteq hkk] at hw
        exact ⟨w, hw⟩

theorem del_isHash {s : Store} {key k : String} (hk : IsHash (del s key) k) : IsHash s k := by
  obtain ⟨w, hw⟩ := hk
  unfold del at hw
  by_cases hkk : k = key
  · subst hkk
    simp at hw
  · rw [Function.update_noteq hkk] at hw
    exact ⟨w, hw⟩

theorem exec_isHash (cmds : List Cmd) :
    ∀ (s : Store) (k : String), IsHash (exec cmds s).1 k → k ∈ hSetKeys cmds ∨ IsHash s k := by
  induction cmds with
  | nil => intro s k hk; exact Or.inr hk
  | cons c rest ih =>
    intro s k hk
    unfold exec at hk
    cases hap : c.apply s with
    | none =>
      rw [hap] at hk
      rcases ih s k hk with hm | hs
      · left
        cases c <;> simp [hSetKeys, hm]
      · exact Or.inr hs
    | some s1 =>
      rw [hap] at hk
      rcases ih s1 k hk with hm | hs
      · left
        cases c <;> simp [hSetKeys, hm]
      · cases c with
        | hSet key p =>
          rcases hSet_isHash hap hs with he | hs0
          · left; simp [hSetKeys, he]
          · exact Or.inr hs0
        | rPush key tx => exact Or.inr (rPush_isHash hap hs)
        | del key =>
          simp only [Cmd.apply, Option.some.injEq] at hap
          subst hap
          exact Or.inr (del_isHash hs)

theorem commit_isHash (fault : Faults) (i : Nat) (cmds : List Cmd) (ok : Response) (s : Store)
    (k : String) (hk : IsHash (commit fault i cmds ok s).2 k) :
    k ∈ hSetKeys cmds ∨ IsHash s k := by
  unfold commit at hk
  split at hk
  · exact Or.inr hk
  · refine exec_isHash cmds s k ?_
    split at hk <;> rename_i heq <;> rw [heq] <;> exact hk

theorem validateCredit_uuid {wallet_id : String} {parsedAmount : JsNumber}
    {reason : Option String} {amount : ℚ}
    (h : validateCredit wallet_id parsedAmount reason = .ok amount) :
    walletIdSchema wallet_id = true := by
  unfold validateCredit at h
  split at h
  · simp at h
  · rename_i hid
    simpa using hid

theorem creditPlan_hSetKeys {fault : Faults} {wallet_id : String} {amount : ℚ}
    {reason : Option String} {now : Nat} {transaction_id : String} {s : Store}
    {cmds : List Cmd} {ok : Response}
    (h : creditPlan fault wallet_id amount reason now transaction_id s = .ok (cmds, ok)) :
    hSetKeys cmds = [walletKey wallet_id] := by
  unfold creditPlan at h
  split at h
  · simp at h
  · split at h
    · simp at h
    · split at h
      · simp at h
      · simp only [Except.ok.injEq, Prod.mk.injEq] at h
        rw [← h.1]
        rfl

theorem debitPlan_hSetKeys {fault : Faults} {wallet_id : String} {amount : ℚ}
    {reason : Option String} {now : Nat} {transaction_id : String} {s : Store}
    {cmds : List Cmd} {ok : Response}
    (h : debitPlan fault wallet_id amount reason now transaction_id s = .ok (cmds, ok)) :
    hSetKeys cmds = [walletKey wallet_id] := by
  unfold debitPlan at h
  split at h
  · simp at h
  · split at h
    · simp at h
    · split at h
      · simp at h
      · simp only at h
        split at h
        · simp at h
        · simp only [Except.ok.injEq, Prod.mk.injEq] at h
          rw [← h.1]
          rfl

theorem createWallet_hashKeys (fault : Faults) (walletId : String) (now : Nat) (s : Store)
    (hid : walletIdSchema walletId = true) (hs : HashKeysAreWalletKeys s) :
    HashKeysAreWalletKeys (createWallet fault walletId now s).2 := by
  unfold createWallet
  simp only
  split
  · exact hs
  · split
    · exact hs
    · rename_i s1 h
      intro k hk
      rcases hSet_isHash h hk with he | h0
      · exact ⟨walletId, hid, he⟩
      · exact hs k h0

theorem creditWallet_hashKeys (fault : Faults) (wallet_id : String) (amount : ℚ)
    (reason : Option String) (now : Nat) (transaction_id : String) (s : Store)
    (hid : walletIdSchema wallet_id = true) (hs : HashKeysAreWalletKeys s) :
    HashKeysAreWalletKeys (creditWallet fault wallet_id amount reason now transaction_id s).2 := by
  unfold creditWallet
  cases hplan : creditPlan fault wallet_id amount reason now transaction_id s with
  | error r => exact hs
  | ok pr =>
    obtain ⟨cmds, ok⟩ := pr
    intro k hk
    rcases commit_isHash fault 1 cmds ok s k hk with hm | h0
    · rw [creditPlan_hSetKeys hplan, List.mem_singleton] at hm
      exact ⟨wallet_id, hid, hm⟩
    · exact hs k h0

theorem debitWallet_hashKeys (fault : Faults) (wallet_id : String) (amount : ℚ)
    (reason : Option String) (now : Nat) (transaction_id : String) (s : Store)
    (hid : walletIdSchema wallet_id = true) (hs : HashKeysAreWalletKeys s) :
    HashKeysAreWalletKeys (debitWallet fault wallet_id amount reason now transaction_id s).2 := by
  unfold debitWallet
  cases hplan : debitPlan fault wallet_id amount reason now transaction_id s with
  | error r => exact hs
  | ok pr =>
    obtain ⟨cmds, ok⟩ := pr
    intro k hk
    rcases commit_isHash fault 1 cmds ok s k hk with hm | h0
    · rw [debitPlan_hSetKeys hplan, List.mem_singleton] at hm
      exact ⟨wallet_id, hid, hm⟩
    · exact hs k h0

theorem resetWallet_hashKeys (fault : Faults) (wallet_id : String) (now : Nat) (s : Store)
    (hs : HashKeysAreWalletKeys s) :
    HashKeysAreWalletKeys (resetWallet fault wallet_id now s).2 := by
  unfold resetWallet
  split
  · exact hs
  · split
    · exact hs
    · rename_i hex
      have hex1 : existsKey s (walletKey wallet_id) = true := by simpa using hex
      split
      · exact hs
      · split
        · exact hs
        · rename_i s1 h
          have h1 : HashKeysAreWalletKeys s1 := by
            intro k hk
            rcases hSet_isHash h hk with he | h0
            · exact hs k (he ▸ hSet_existing_isHash h hex1)
            · exact hs k h0
          split
          · exact h1
          · intro k hk
            exact h1 k (del_isHash hk)

theorem deleteWallet_hashKeys (fault : Faults) (wallet_id : String) (now : Nat) (s : Store)
    (hs : HashKeysAreWalletKeys s) :
    HashKeysAreWalletKeys (deleteWallet fault wallet_id now s).2 := by
  unfold deleteWallet
  split
  · exact hs
  · split
    · exact hs
    · intro k hk
      rcases commit_isHash fault 1 _ _ s k hk with hm | h0
      · simp [hSetKeys] at hm
      · exact hs k h0

theorem step_hashKeys (op : Op) (s : Store) (hadm : op.admissible s)
    (hs : HashKeysAreWalletKeys s) : HashKeysAreWalletKeys (step op s) := by
  cases op with
  | assign walletId now => exact createWallet_hashKeys noFault walletId now s hadm.1 hs
  | credit wallet_id parsedAmount reason now transaction_id =>
    simp only [step, creditRoute]
    cases hv : validateCredit wallet_id parsedAmount reason with
    | error e => exact hs
    | ok amount =>
      exact creditWallet_hashKeys noFault wallet_id amount reason now transaction_id s
        (validateCredit_uuid hv) hs
  | debit wallet_id parsedAmount reason now transaction_id =>
    simp only [step, debitRoute]
    cases hv : validateDebit wallet_id parsedAmount reason with
    | error e => exact hs
    | ok amount =>
      exact debitWallet_hashKeys noFault wallet_id amount reason now transaction_id s
        (validateCredit_uuid hv) hs
  | reset wallet_id now => exact resetWallet_hashKeys noFault wallet_id now s hs
  | delete wallet_id now => exact deleteWallet_hashKeys noFault wallet_id now s hs
  | balance _ => exact hs
  | transactions _ _ _ => exact hs
  | summary _ => exact hs
  | exportHistory _ _ _ => exact hs

theorem reachable_hashKeys {s : Store} (h : Reachable s) : HashKeysAreWalletKeys s := by
  induction h with
  | empty =>
    intro k hk
    obtain ⟨w, hw⟩ := hk
    simp [emptyStore] at hw
  | next op _ hadm ih => exact step_hashKeys op _ hadm ih

theorem hasHistory_of_hashKeys {s : Store} (hk : HashKeysAreWalletKeys s) {wallet_id : String}
    (hid : walletIdSchema wallet_id = true) :
    HasHistory s wallet_id (storedHistory s wallet_id) := by
  have hnot := txKey_not_hash hk hid
  unfold HasHistory storedHistory
  cases hsk : s (txKey wallet_id) with
  | none => exact Or.inr ⟨rfl, rfl⟩
  | some v =>
    cases v with
    | list l => exact Or.inl rfl
    | hash w => exact absurd ⟨w, hsk⟩ hnot

theorem reachable_hasHistory {s : Store} (h : Reachable s) {wallet_id : String}
    (hid : walletIdSchema wallet_id = true) :
    HasHistory s wallet_id (storedHistory s wallet_id) :=
  hasHistory_of_hashKeys (reachable_hashKeys h) hid

/-! ## Successful credits and debits -/


theorem isEmpty_of_balance {w : Hash} {b : ℚ} (hb : w.balance = some b) : w.isEmpty = false := by
  simp [Hash.isEmpty, hb]

theorem creditWallet_ok (s : Store) (wallet_id : String) (w : Hash) (h : List Transaction)
    (amount : ℚ) (reason : Option String) (now : Nat) (transaction_id : String)
    (hw : s (walletKey wallet_id) = some (.hash w)) (hne : w.isEmpty = false)
    (hh : HasHistory s wallet_id h) :
    creditWallet noFault wallet_id amount reason now transaction_id s
      = (.creditOk wallet_id amount (w.balance.getD 0 + amount) transaction_id now,
         Function.update
           (Function.update s (walletKey wallet_id)
             (some (.hash (w.merge (balancePatch (w.balance.getD 0 + amount) now)))))
           (txKey wallet_id)
           (some (.list (h ++ [newTransaction transaction_id .credit amount reason now
              (w.balance.getD 0 + amount)])))) := by
  have hk : txKey wallet_id ≠ walletKey wallet_id := txKey_ne_walletKey wallet_id
  rcases hh with hl | ⟨hn, rfl⟩
  · simp [creditWallet, creditPlan, noFault, hGetAll, hw, hne, commit, exec, Cmd.apply, hSet,
      rPush, Function.update_noteq hk, hl]
  · simp [creditWallet, creditPlan, noFault, hGetAll, hw, hne, commit, exec, Cmd.apply, hSet,
      rPush, Function.update_noteq hk, hn]

theorem debitWallet_ok (s : Store) (wallet_id : String) (w : Hash) (h : List Transaction)
    (amount : ℚ) (reason : Option String) (now : Nat) (transaction_id : String)
    (hw : s (walletKey wallet_id) = some (.hash w)) (hne : w.isEmpty = false)
    (hh : HasHistory s wallet_id h) (hge : amount ≤ w.balance.getD 0) :
    debitWallet noFault wallet_id amount reason now transaction_id s
      = (.debitOk wallet_id amount (w.balance.getD 0 - amount) transaction_id now,
         Function.update
           (Function.update s (walletKey wallet_id)
             (some (.hash (w.merge (balancePatch (w.balance.getD 0 - amount) now)))))
           (txKey wallet_id)
           (some (.list (h ++ [newTransaction transaction_id .debit amount reason now
              (w.balance.getD 0 - amount)])))) := by
  have hk : txKey wallet_id ≠ walletKey wallet_id := txKey_ne_walletKey wallet_id
  have hlt : ¬ (w.balance.getD 0 < amount) := not_lt.mpr hge
  rcases hh with hl | ⟨hn, rfl⟩
  · simp [debitWallet, debitPlan, noFault, hGetAll, hw, hne, commit, exec, Cmd.apply, hSet,
      rPush, Function.update_noteq hk, hl, hlt]
  · simp [debitWallet, debitPlan, noFault, hGetAll, hw, hne, commit, exec, Cmd.apply, hSet,
      rPush, Function.update_noteq hk, hn, hlt]

/-! ## The replay invariant -/

theorem txKey_injective {a b : String} (h : txKey a = txKey b) : a = b := by
  have hd := congrArg String.data h
  simp only [txKey, String.data_append, List.append_cancel_left_eq,
    List.append_cancel_right_eq] at hd
  exact String.ext hd

theorem walletKey_ne_txKey_of_uuid {a b : String} (ha : walletIdSchema a = true)
    (hb : walletIdSchema b = true) : walletKey a ≠ txKey b := by
  intro h
  rw [txKey_eq_walletKey] at h
  have hlen := congrArg String.length (walletKey_injective h)
  rw [String.length_append, walletIdSchema_length ha, walletIdSchema_length hb] at hlen
  exact absurd hlen (by decide)

theorem replay_append (l : List Transaction) (t : Transaction) :
    ∀ start : ℚ, replay start (l ++ [t])
      = replay start l ++ [start + (l.map signedAmount).sum + signedAmount t] := by
  induction l with
  | nil => intro start; simp [replay]
  | cons x rest ih =>
    intro start
    have e : start + signedAmount x + (rest.map signedAmount).sum + signedAmount t
        = start + ((x :: rest).map signedAmount).sum + signedAmount t := by
      simp [add_assoc]
    show (start + signedAmount x) :: replay (start + signedAmount x) (rest ++ [t]) = _
    rw [ih, e]
    rfl

theorem storedHistory_eq_listOf (s : Store) (u : String) :
    storedHistory s u = listOf (s (txKey u)) := by
  unfold storedHistory listOf
  rcases s (txKey u) with _ | v
  · rfl
  · cases v <;> rfl

theorem ledger_update (s : Store) (u : String) (v1 v2 : Option Value) (hs : Ledger s)
    (hu : walletIdSchema u = true)
    (hv1 : ∀ l, v1 ≠ some (.list l)) (hv2 : ∀ w, v2 ≠ some (.hash w))
    (hb : ∀ l, v2 = some (.list l) → ∃ w, v1 = some (.hash w))
    (hc : ∀ w, v1 = some (.hash w) →
      replay 0 (listOf v2) = (listOf v2).map (fun tx => tx.balance_after_transaction)
        ∧ w.balance = some ((listOf v2).map signedAmount).sum) :
    Ledger (Function.update (Function.update s (walletKey u) v1) (txKey u) v2) := by
  obtain ⟨ha, hbs, hcs⟩ := hs
  have hwt : walletKey u ≠ txKey u := walletKey_ne_txKey u
  have hat_w : (Function.update (Function.update s (walletKey u) v1) (txKey u) v2) (walletKey u)
      = v1 := by
    rw [Function.update_noteq hwt, Function.update_same]
  have hat_t : (Function.update (Function.update s (walletKey u) v1) (txKey u) v2) (txKey u)
      = v2 := Function.update_same _ _ _
  have hother : ∀ k, k ≠ walletKey u → k ≠ txKey u →
      (Function.update (Function.update s (walletKey u) v1) (txKey u) v2) k = s k := by
    intro k h1 h2
    rw [Function.update_noteq h2, Function.update_noteq h1]
  refine ⟨?_, ?_, ?_⟩
  · intro k hk
    obtain ⟨w, hw⟩ := hk
    by_cases h2 : k = txKey u
    · subst h2
      rw [hat_t] at hw
      exact absurd hw (hv2 w)
    · by_cases h1 : k = walletKey u
      · exact ⟨u, hu, h1⟩
      · rw [hother k h1 h2] at hw
        exact ha k ⟨w, hw⟩
  · intro u1 l hl
    by_cases h2 : txKey u1 = txKey u
    · have hu1 : u1 = u := txKey_injective h2
      subst hu1
      rw [hat_t] at hl
      obtain ⟨w, hw⟩ := hb l hl
      exact ⟨w, by rw [hat_w]; exact hw⟩
    · by_cases h1 : txKey u1 = walletKey u
      · rw [h1, hat_w] at hl
        exact absurd hl (hv1 l)
      · rw [hother _ h1 h2] at hl
        obtain ⟨w, hw⟩ := hbs u1 l hl
        obtain ⟨u2, hu2, hk2⟩ := ha _ ⟨w, hw⟩
        have hu12 : u1 = u2 := walletKey_injective hk2
        subst hu12
        have hne : u1 ≠ u := fun hc1 => h2 (by rw [hc1])
        refine ⟨w, ?_⟩
        rw [hother _ (fun hc1 => hne (walletKey_injective hc1))
          (walletKey_ne_txKey_of_uuid hu2 hu)]
        exact hw
  · intro u1 w hw
    by_cases hu1 : u1 = u
    · subst hu1
      rw [hat_w] at hw
      rw [storedHistory_eq_listOf, hat_t]
      exact hc w hw
    · have h1 : walletKey u1 ≠ walletKey u := fun hc1 => hu1 (walletKey_injective hc1)
      by_cases h2 : walletKey u1 = txKey u
      · rw [h2, hat_t] at hw
        exact absurd hw (hv2 w)
      · rw [hother _ h1 h2] at hw
        obtain ⟨u2, hu2, hk2⟩ := ha _ ⟨w, hw⟩
        have hu12 : u1 = u2 := walletKey_injective hk2
        subst hu12
        have hsame : storedHistory
            (Function.update (Function.update s (walletKey u) v1) (txKey u) v2) u1
            = storedHistory s u1 := by
          rw [storedHistory_eq_listOf, storedHistory_eq_listOf,
            hother _ (fun hc1 => walletKey_ne_txKey_of_uuid hu hu2 hc1.symm)
              (fun hc1 => hu1 (txKey_injective hc1))]
        rw [hsame]
        exact hcs u1 w hw

theorem creditRoute_shape (s : Store) (hk : HashKeysAreWalletKeys s) (wallet_id : String)
    (parsedAmount : JsNumber) (reason : Option String) (now : Nat) (transaction_id : String) :
    (creditRoute noFault wallet_id parsedAmount reason now transaction_id s).2 = s
      ∨ ∃ a w, 0 < a ∧ walletIdSchema wallet_id = true
          ∧ s (walletKey wallet_id) = some (.hash w)
          ∧ (creditRoute noFault wallet_id parsedAmount reason now transaction_id s).2
            = Function.update
                (Function.update s (walletKey wallet_id)
                  (some (.hash (w.merge (balancePatch (w.balance.getD 0 + a) now)))))
                (txKey wallet_id)
                (some (.list (storedHistory s wallet_id
                  ++ [newTransaction transaction_id .credit a reason now
                        (w.balance.getD 0 + a)]))) := by
  unfold creditRoute
  cases hv : validateCredit wallet_id parsedAmount reason with
  | error e => exact Or.inl rfl
  | ok a =>
    have hid := validateCredit_uuid hv
    cases hsw : s (walletKey wallet_id) with
    | none => left; simp [creditWallet, creditPlan, noFault, hGetAll, hsw, Hash.isEmpty, Hash.empty]
    | some v =>
      cases v with
      | list l => left; simp [creditWallet, creditPlan, noFault, hGetAll, hsw]
      | hash w =>
        by_cases hne : w.isEmpty = true
        · left; simp [creditWallet, creditPlan, noFault, hGetAll, hsw, hne]
        · right
          refine ⟨a, w, validateCredit_pos hv, hid, rfl, ?_⟩
          simp only
          rw [creditWallet_ok s wallet_id w _ a reason now transaction_id hsw (by simpa using hne)
            (hasHistory_of_hashKeys hk hid)]

theorem debitRoute_shape (s : Store) (hk : HashKeysAreWalletKeys s) (wallet_id : String)
    (parsedAmount : JsNumber) (reason : Option String) (now : Nat) (transaction_id : String) :
    (debitRoute noFault wallet_id parsedAmount reason now transaction_id s).2 = s
      ∨ ∃ a w, a ≤ w.balance.getD 0 ∧ walletIdSchema wallet_id = true
          ∧ s (walletKey wallet_id) = some (.hash w)
          ∧ (debitRoute noFault wallet_id parsedAmount reason now transaction_id s).2
            = Function.update
                (Function.update s (walletKey wallet_id)
                  (some (.hash (w.merge (balancePatch (w.balance.getD 0 - a) now)))))
                (txKey wallet_id)
                (some (.list (storedHistory s wallet_id
                  ++ [newTransaction transaction_id .debit a reason now
                        (w.balance.getD 0 - a)]))) := by
  unfold debitRoute
  cases hv : validateDebit wallet_id parsedAmount reason with
  | error e => exact Or.inl rfl
  | ok a =>
    have hid := validateCredit_uuid hv
    cases hsw : s (walletKey wallet_id) with
    | none => left; simp [debitWallet, debitPlan, noFault, hGetAll, hsw, Hash.isEmpty, Hash.empty]
    | some v =>
      cases v with
      | list l => left; simp [debitWallet, debitPlan, noFault, hGetAll, hsw]
      | hash w =>
        by_cases hne : w.isEmpty = true
        · left; simp [debitWallet, debitPlan, noFault, hGetAll, hsw, hne]
        · by_cases hlt : w.balance.getD 0 < a
          · left; simp [debitWallet, debitPlan, noFault, hGetAll, hsw, hne, hlt]
          · right
            refine ⟨a, w, not_lt.mp hlt, hid, rfl, ?_⟩
            simp only
            rw [debitWallet_ok s wallet_id w _ a reason now transaction_id hsw
              (by simpa using hne) (hasHistory_of_hashKeys hk hid) (not_lt.mp hlt)]

theorem resetWallet_shape (s : Store) (wallet_id : String) (now : Nat) :
    (resetWallet noFault wallet_id now s).2 = s
      ∨ ∃ w, s (walletKey wallet_id) = some (.hash w)
          ∧ (resetWallet noFault wallet_id now s).2
            = Function.update
                (Function.update s (walletKey wallet_id)
                  (some (.hash (w.merge (balancePatch 0 now)))))
                (txKey wallet_id) none := by
  cases hsw : s (walletKey wallet_id) with
  | none => left; simp [resetWallet, noFault, existsKey, hsw]
  | some v =>
    cases v with
    | list l => left; simp [resetWallet, noFault, existsKey, hsw, hSet]
    | hash w =>
      right
      refine ⟨w, rfl, ?_⟩
      simp [resetWallet, noFault, existsKey, hsw, hSet, del]

theorem deleteWallet_shape (s : Store) (wallet_id : String) (now : Nat) :
    (deleteWallet noFault wallet_id now s).2 = s
      ∨ (deleteWallet noFault wallet_id now s).2
          = Function.update (Function.update s (walletKey wallet_id) none)
              (txKey wallet_id) none := by
  by_cases hex : existsKey s (walletKey wallet_id) = true
  · right
    simp [deleteWallet, noFault, hex, commit, exec, Cmd.apply, del]
  · left
    simp [deleteWallet, noFault, hex]

theorem step_ledger (op : Op) (s : Store) (hadm : op.admissible s)
    (hdel : op.deleteIdWellFormed) (hs : Ledger s) : Ledger (step op s) := by
  cases op with
  | assign walletId now =>
    obtain ⟨hid, hfresh⟩ := hadm
    have htx : s (txKey walletId) = none := by
      cases hsk : s (txKey walletId) with
      | none => rfl
      | some v =>
        cases v with
        | hash w => exact absurd ⟨w, hsk⟩ (txKey_not_hash hs.1 hid)
        | list l =>
          obtain ⟨w, hw⟩ := hs.2.1 walletId l hsk
          rw [hfresh] at hw
          simp at hw
    have hshape : step (.assign walletId now) s
        = Function.update
            (Function.update s (walletKey walletId)
              (some (.hash { wallet_id := some walletId, balance := some 0,
                             created_at := some now, last_updated := some now })))
            (txKey walletId) none := by
      have e : Function.update
            (Function.update s (walletKey walletId)
              (some (.hash { wallet_id := some walletId, balance := some 0,
                             created_at := some now, last_updated := some now })))
            (txKey walletId) none
          = Function.update s (walletKey walletId)
              (some (.hash { wallet_id := some walletId, balance := some 0,
                             created_at := some now, last_updated := some now })) := by
        apply Function.update_eq_iff.mpr
        refine ⟨?_, fun _ _ => rfl⟩
        rw [Function.update_noteq (txKey_ne_walletKey walletId), htx]
      rw [e]
      simp [step, createWallet, noFault, hSet, hfresh, Hash.merge, Hash.empty]
    rw [hshape]
    refine ledger_update s walletId _ _ hs hid (by simp) (by simp) (by simp) ?_
    intro w hw
    simp only [Option.some.injEq, Value.hash.injEq] at hw
    subst hw
    simp [listOf, replay]
  | credit wallet_id parsedAmount reason now transaction_id =>
    rcases creditRoute_shape s hs.1 wallet_id parsedAmount reason now transaction_id with
      h | ⟨a, w, ha, hid, hw, h⟩
    · simp only [step]; rw [h]; exact hs
    · simp only [step]
      rw [h]
      obtain ⟨hrep, hbal⟩ := hs.2.2 wallet_id w hw
      have hgd : w.balance.getD 0 = ((storedHistory s wallet_id).map signedAmount).sum := by
        rw [hbal]; rfl
      refine ledger_update s wallet_id _ _ hs hid (by simp) (by simp) (by simp) ?_
      intro w1 hw1
      simp only [Option.some.injEq, Value.hash.injEq] at hw1
      subst hw1
      simp only [listOf, replay_append, hrep, List.map_append, List.map_cons, List.map_nil,
        List.sum_append, List.sum_cons, List.sum_nil, hgd]
      constructor
      · simp [newTransaction, signedAmount]
      · simp [newTransaction, signedAmount, Hash.merge, balancePatch]
  | debit wallet_id parsedAmount reason now transaction_id =>
    rcases debitRoute_shape s hs.1 wallet_id parsedAmount reason now transaction_id with
      h | ⟨a, w, ha, hid, hw, h⟩
    · simp only [step]; rw [h]; exact hs
    · simp only [step]
      rw [h]
      obtain ⟨hrep, hbal⟩ := hs.2.2 wallet_id w hw
      have hgd : w.balance.getD 0 = ((storedHistory s wallet_id).map signedAmount).sum := by
        rw [hbal]; rfl
      refine ledger_update s wallet_id _ _ hs hid (by simp) (by simp) (by simp) ?_
      intro w1 hw1
      simp only [Option.some.injEq, Value.hash.injEq] at hw1
      subst hw1
      simp only [listOf, replay_append, hrep, List.map_append, List.map_cons, List.map_nil,
        List.sum_append, List.sum_cons, List.sum_nil, hgd]
      constructor
      · simp [newTransaction, signedAmount, sub_eq_add_neg]
      · simp [newTransaction, signedAmount, Hash.merge, balancePatch, sub_eq_add_neg]
  | reset wallet_id now =>
    rcases resetWallet_shape s wallet_id now with h | ⟨w, hw, h⟩
    · simp only [step]; rw [h]; exact hs
    · simp only [step]
      rw [h]
      obtain ⟨u, hu, hkey⟩ := hs.1 _ ⟨w, hw⟩
      have hwu : wallet_id = u := walletKey_injective hkey
      subst hwu
      refine ledger_update s wallet_id _ _ hs hu (by simp) (by simp) (by simp) ?_
      intro w1 hw1
      simp only [Option.some.injEq, Value.hash.injEq] at hw1
      subst hw1
      simp [listOf, replay, Hash.merge, balancePatch]
  | delete wallet_id now =>
    rcases deleteWallet_shape s wallet_id now with h | h
    · simp only [step]; rw [h]; exact hs
    · simp only [step]
      rw [h]
      exact ledger_update s wallet_id _ _ hs hdel (by simp) (by simp) (by simp) (by simp)
  | balance _ => exact hs
  | transactions _ _ _ => exact hs
  | summary _ => exact hs
  | exportHistory _ _ _ => exact hs

theorem ledger_emptyStore : Ledger emptyStore := by
  refine ⟨?_, ?_, ?_⟩
  · intro k hk
    obtain ⟨w, hw⟩ := hk
    simp [emptyStore] at hw
  · intro u l hl
    simp [emptyStore] at hl
  · intro u w hw
    simp [emptyStore] at hw

theorem run_ledger (ops : List Op) :
    ∀ s : Store, Ledger s → admissibleRun ops s → (∀ op ∈ ops, op.deleteIdWellFormed) →
      Ledger (run ops s) := by
  induction ops with
  | nil => intro s hs _ _; exact hs
  | cons op rest ih =>
    intro s hs hadm hdel
    exact ih (step op s)
      (step_ledger op s hadm.1 (hdel op (List.mem_cons_self _ _)) hs) hadm.2
      (fun o ho => hdel o (List.mem_cons_of_mem _ ho))

theorem replay_consistent_of_wellFormed_deletes (ops : List Op)
    (hadm : admissibleRun ops emptyStore) (hdel : ∀ op ∈ ops, op.deleteIdWellFormed) :
    ReplayConsistent (run ops emptyStore) :=
  (run_ledger ops emptyStore ledger_emptyStore hadm hdel).2.2

/-! ## Serial schedules -/

theorem interleave_first_alone (plan : Store → Except Response (List Cmd × Response))
    (b : InFlight) (s : Store) :
    (interleave [false, false] (.start plan, b, s)).2.2
      = (match plan s with
          | .error _ => s
          | .ok (cmds, ok) => (commit noFault 1 cmds ok s).2) := by
  simp only [interleave, InFlight.advance]
  cases plan s with
  | error r => rfl
  | ok pr => rfl

theorem creditWallet_store_eq (wallet_id : String) (amount : ℚ) (reason : Option String)
    (now : Nat) (transaction_id : String) (b : InFlight) (s : Store) :
    (interleave [false, false]
        (.start (creditPlan noFault wallet_id amount reason now transaction_id), b, s)).2.2
      = (creditWallet noFault wallet_id amount reason now transaction_id s).2 := by
  rw [interleave_first_alone]
  unfold creditWallet
  cases creditPlan noFault wallet_id amount reason now transaction_id s with
  | error r => rfl
  | ok pr => rfl

theorem debitWallet_store_eq (wallet_id : String) (amount : ℚ) (reason : Option String)
    (now : Nat) (transaction_id : String) (b : InFlight) (s : Store) :
    (interleave [false, false]
        (.start (debitPlan noFault wallet_id amount reason now transaction_id), b, s)).2.2
      = (debitWallet noFault wallet_id amount reason now transaction_id s).2 := by
  rw [interleave_first_alone]
  unfold debitWallet
  cases debitPlan noFault wallet_id amount reason now transaction_id s with
  | error r => rfl
  | ok pr => rfl

theorem serial_schedules_reach_120 :
    (interleave [false, false, true, true]
        (.start (creditPlan noFault sampleId 50 none 3 "t1"),
         .start (debitPlan noFault sampleId 30 none 4 "t2"), walletOf100)).2.2 (txKey sampleId)
      = some (.list [newTransaction "t0" .credit 100 none 2 100,
          newTransaction "t1" .credit 50 none 3 150,
          newTransaction "t2" .debit 30 none 4 120])
    ∧ (interleave [true, true, false, false]
        (.start (creditPlan noFault sampleId 50 none 3 "t1"),
         .start (debitPlan noFault sampleId 30 none 4 "t2"), walletOf100)).2.2 (txKey sampleId)
      = some (.list [newTransaction "t0" .credit 100 none 2 100,
          newTransaction "t2" .debit 30 none 4 70,
          newTransaction "t1" .credit 50 none 3 120]) := by
  constructor <;> decide!

/-! ## Store failures -/

theorem deleteWallet_all_or_nothing (fault : Faults) (wallet_id : String) (now : Nat)
    (s : Store) :
    (deleteWallet fault wallet_id now s).2 = s
      ∨ ((deleteWallet fault wallet_id now s).1 = .deleteOk wallet_id now
          ∧ (deleteWallet fault wallet_id now s).2
            = del (del s (walletKey wallet_id)) (txKey wallet_id)) := by
  unfold deleteWallet
  split
  · exact Or.inl rfl
  · split
    · exact Or.inl rfl
    · unfold commit
      split
      · exact Or.inl rfl
      · exact Or.inr ⟨rfl, rfl⟩

theorem creditWallet_all_or_nothing (fault : Faults) (s : Store) (wallet_id : String)
    (h : List Transaction) (amount : ℚ) (reason : Option String) (now : Nat)
    (transaction_id : String) (hh : HasHistory s wallet_id h) :
    (creditWallet fault wallet_id amount reason now transaction_id s).2 = s
      ∨ ∃ new_balance, (creditWallet fault wallet_id amount reason now transaction_id s).1
          = .creditOk wallet_id amount new_balance transaction_id now := by
  have hk : txKey wallet_id ≠ walletKey wallet_id := txKey_ne_walletKey wallet_id
  unfold creditWallet creditPlan
  by_cases hf0 : fault 0 = true
  · simp [hf0]
  · cases hsw : s (walletKey wallet_id) with
    | none => simp [hf0, hGetAll, hsw, Hash.isEmpty, Hash.empty]
    | some v =>
      cases v with
      | list l => simp [hf0, hGetAll, hsw]
      | hash w =>
        by_cases hne : w.isEmpty = true
        · simp [hf0, hGetAll, hsw, hne]
        · by_cases hf1 : fault 1 = true
          · simp [hf0, hGetAll, hsw, hne, commit, hf1]
          · right
            rcases hh with hl | ⟨hn, rfl⟩
            · simp [hf0, hGetAll, hsw, hne, commit, hf1, exec, Cmd.apply, hSet, rPush,
                Function.update_noteq hk, hl]
            · simp [hf0, hGetAll, hsw, hne, commit, hf1, exec, Cmd.apply, hSet, rPush,
                Function.update_noteq hk, hn]

theorem debitWallet_all_or_nothing (fault : Faults) (s : Store) (wallet_id : String)
    (h : List Transaction) (amount : ℚ) (reason : Option String) (now : Nat)
    (transaction_id : String) (hh : HasHistory s wallet_id h) :
    (debitWallet fault wallet_id amount reason now transaction_id s).2 = s
      ∨ ∃ new_balance, (debitWallet fault wallet_id amount reason now transaction_id s).1
          = .debitOk wallet_id amount new_balance transaction_id now := by
  have hk : txKey wallet_id ≠ walletKey wallet_id := txKey_ne_walletKey wallet_id
  unfold debitWallet debitPlan
  by_cases hf0 : fault 0 = true
  · simp [hf0]
  · cases hsw : s (walletKey wallet_id) with
    | none => simp [hf0, hGetAll, hsw, Hash.isEmpty, Hash.empty]
    | some v =>
      cases v with
      | list l => simp [hf0, hGetAll, hsw]
      | hash w =>
        by_cases hne : w.isEmpty = true
        · simp [hf0, hGetAll, hsw, hne]
        · by_cases hlt : w.balance.getD 0 < amount
          · simp [hf0, hGetAll, hsw, hne, hlt]
          · by_cases hf1 : fault 1 = true
            · simp [hf0, hGetAll, hsw, hne, hlt, commit, hf1]
            · right
              rcases hh with hl | ⟨hn, rfl⟩
              · simp [hf0, hGetAll, hsw, hne, hlt, commit, hf1, exec, Cmd.apply, hSet, rPush,
                  Function.update_noteq hk, hl]
              · simp [hf0, hGetAll, hsw, hne, hlt, commit, hf1, exec, Cmd.apply, hSet, rPush,
                  Function.update_noteq hk, hn]

/-! ## Effects of a credit and of a debit -/


theorem merge_balancePatch (w : Hash) (balance : ℚ) (now : Nat) :
    w.merge (balancePatch balance now)
      = { wallet_id := w.wallet_id, balance := some balance, created_at := w.created_at,
          last_updated := some now } := by
  cases w
  rfl

/-! ## Rejected amounts -/

theorem validateCredit_rejects (wallet_id : String) (parsedAmount : JsNumber)
    (reason : Option String) (hbad : parsedAmount.notPositiveFinite) :
    ∃ e, validateCredit wallet_id parsedAmount reason = .error e := by
  unfold validateCredit
  by_cases hid : walletIdSchema wallet_id = true
  · cases parsedAmount with
    | nan => exact ⟨.amountNotANumber, by simp [hid]⟩
    | posInf => exact ⟨.invalidAmount, by simp [hid, amountSchema]⟩
    | negInf => exact ⟨.invalidAmount, by simp [hid, amountSchema]⟩
    | fin q =>
      have hq : ¬ 0 < q := not_lt.mpr hbad
      exact ⟨.invalidAmount, by simp [hid, amountSchema, hq]⟩
  · exact ⟨.invalidWalletId, by simp [hid]⟩

theorem validateCredit_ok_fin {wallet_id : String} {parsedAmount : JsNumber}
    {reason : Option String} {amount : ℚ}
    (h : validateCredit wallet_id parsedAmount reason = .ok amount) :
    parsedAmount = .fin amount := by
  unfold validateCredit at h
  split at h
  · simp at h
  · split at h
    · simp at h
    · cases parsedAmount with
      | fin q =>
        by_cases hq : 0 < q
        · cases reason with
          | none => simp [amountSchema, hq] at h; rw [h]
          | some r =>
            simp only [amountSchema, hq, if_true] at h
            split at h
            · simp at h; rw [h]
            · simp at h
        · simp [amountSchema, hq] at h
      | nan => simp [amountSchema] at h
      | posInf => simp [amountSchema] at h
      | negInf => simp [amountSchema] at h

/-! ## Wallet ids with no wallet -/

theorem isList_update2 {s : Store} {k1 k2 k : String} {v1 v2 : Option Value}
    (h : IsList (Function.update (Function.update s k1 v1) k2 v2) k) :
    (k = k2 ∧ ∃ l, v2 = some (.list l)) ∨ (k = k1 ∧ ∃ l, v1 = some (.list l)) ∨ IsList s k := by
  obtain ⟨l, hl⟩ := h
  by_cases h2 : k = k2
  · subst h2
    rw [Function.update_same] at hl
    exact Or.inl ⟨rfl, l, hl⟩
  · rw [Function.update_noteq h2] at hl
    by_cases h1 : k = k1
    · subst h1
      rw [Function.update_same] at hl
      exact Or.inr (Or.inl ⟨rfl, l, hl⟩)
    · rw [Function.update_noteq h1] at hl
      exact Or.inr (Or.inr ⟨l, hl⟩)

theorem createWallet_shape (s : Store) (walletId : String) (now : Nat)
    (hfresh : s (walletKey walletId) = none) :
    (createWallet noFault walletId now s).2
      = Function.update s (walletKey walletId)
          (some (.hash { wallet_id := some walletId, balance := some 0,
                         created_at := some now, last_updated := some now })) := by
  simp [createWallet, noFault, hSet, hfresh, Hash.merge, Hash.empty]

theorem step_listKeys (op : Op) (s : Store) (hadm : op.admissible s)
    (hk : HashKeysAreWalletKeys s) (hl : ListKeysAreTxKeys s) :
    ListKeysAreTxKeys (step op s) := by
  cases op with
  | assign walletId now =>
    simp only [step]
    rw [createWallet_shape s walletId now hadm.2]
    intro k hkl
    obtain ⟨l, hl1⟩ := hkl
    by_cases h1 : k = walletKey walletId
    · subst h1
      rw [Function.update_same] at hl1
      simp at hl1
    · rw [Function.update_noteq h1] at hl1
      exact hl k ⟨l, hl1⟩
  | credit wallet_id parsedAmount reason now transaction_id =>
    simp only [step]
    rcases creditRoute_shape s hk wallet_id parsedAmount reason now transaction_id with
      h | ⟨a, w, _, hid, _, h⟩
    · rw [h]; exact hl
    · rw [h]
      intro k hkl
      rcases isList_update2 hkl with ⟨h2, _⟩ | ⟨_, l, hv⟩ | h0
      · exact ⟨wallet_id, hid, h2⟩
      · simp at hv
      · exact hl k h0
  | debit wallet_id parsedAmount reason now transaction_id =>
    simp only [step]
    rcases debitRoute_shape s hk wallet_id parsedAmount reason now transaction_id with
      h | ⟨a, w, _, hid, _, h⟩
    · rw [h]; exact hl
    · rw [h]
      intro k hkl
      rcases isList_update2 hkl with ⟨h2, _⟩ | ⟨_, l, hv⟩ | h0
      · exact ⟨wallet_id, hid, h2⟩
      · simp at hv
      · exact hl k h0
  | reset wallet_id now =>
    simp only [step]
    rcases resetWallet_shape s wallet_id now with h | ⟨w, _, h⟩
    · rw [h]; exact hl
    · rw [h]
      intro k hkl
      rcases isList_update2 hkl with ⟨_, l, hv⟩ | ⟨_, l, hv⟩ | h0
      · simp at hv
      · simp at hv
      · exact hl k h0
  | delete wallet_id now =>
    simp only [step]
    rcases deleteWallet_shape s wallet_id now with h | h
    · rw [h]; exact hl
    · rw [h]
      intro k hkl
      rcases isList_update2 hkl with ⟨_, l, hv⟩ | ⟨_, l, hv⟩ | h0
      · simp at hv
      · simp at hv
      · exact hl k h0
  | balance _ => exact hl
  | transactions _ _ _ => exact hl
  | summary _ => exact hl
  | exportHistory _ _ _ => exact hl

theorem reachable_listKeys {s : Store} (h : Reachable s) : ListKeysAreTxKeys s := by
  induction h with
  | empty =>
    intro k hk
    obtain ⟨l, hl⟩ := hk
    simp [emptyStore] at hl
  | next op hs hadm ih => exact step_listKeys op _ hadm (reachable_hashKeys hs) ih

theorem reachable_absent {s : Store} (hr : Reachable s) {wallet_id : String}
    (hid : walletIdSchema wallet_id = true) (hno : ¬ IsHash s (walletKey wallet_id)) :
    s (walletKey wallet_id) = none := by
  cases hsk : s (walletKey wallet_id) with
  | none => rfl
  | some v =>
    cases v with
    | hash w => exact absurd ⟨w, hsk⟩ hno
    | list l =>
      obtain ⟨u, hu, hkey⟩ := reachable_listKeys hr _ ⟨l, hsk⟩
      exact absurd hkey (walletKey_ne_txKey_of_uuid hid hu)

theorem absent_not_found (s : Store) (wallet_id : String)
    (habs : s (walletKey wallet_id) = none) :
    (∀ now, resetWallet noFault wallet_id now s = (.notFound, s))
      ∧ (∀ now, deleteWallet noFault wallet_id now s = (.notFound, s))
      ∧ getWalletBalance noFault wallet_id s = .notFound
      ∧ (∀ limit offset, getTransactions noFault wallet_id limit offset s = .notFound)
      ∧ getWalletSummary noFault wallet_id s = .notFound
      ∧ (∀ render format now,
          exportTransactionHistory noFault render wallet_id format now s = .notFound)
      ∧ (∀ amount reason now transaction_id,
          creditWallet noFault wallet_id amount reason now transaction_id s = (.notFound, s))
      ∧ (∀ amount reason now transaction_id,
          debitWallet noFault wallet_id amount reason now transaction_id s = (.notFound, s)) := by
  refine ⟨?_, ?_, ?_, ?_, ?_, ?_, ?_, ?_⟩
  · intro now
    simp [resetWallet, noFault, existsKey, habs]
  · intro now
    simp [deleteWallet, noFault, existsKey, habs]
  · simp [getWalletBalance, noFault, hGetAll, habs, Hash.isEmpty, Hash.empty]
  · intro limit offset
    simp [getTransactions, noFault, existsKey, habs]
  · simp [getWalletSummary, noFault, hGetAll, habs, Hash.isEmpty, Hash.empty]
  · intro render format now
    simp [exportTransactionHistory, noFault, existsKey, habs]
  · intro amount reason now transaction_id
    simp [creditWallet, creditPlan, noFault, hGetAll, habs, Hash.isEmpty, Hash.empty]
  · intro amount reason now transaction_id
    simp [debitWallet, debitPlan, noFault, hGetAll, habs, Hash.isEmpty, Hash.empty]

theorem validateCredit_invalid_id (wallet_id : String) (parsedAmount : JsNumber)
    (reason : Option String) (hid : walletIdSchema wallet_id = false) :
    validateCredit wallet_id parsedAmount reason = .error .invalidWalletId := by
  simp [validateCredit, hid]

/-! ## Export -/

theorem csvHeaders_eq : csvHeaders = String.intercalate "," csvColumns ++ "\n" := by
  decide

theorem csvRow_eq (render : ℚ → String) (tx : Transaction) :
    csvRow render tx = String.intercalate "," (csvFields render tx) := by
  simp [csvRow, csvFields, String.intercalate, String.intercalate.go, String.append_assoc]

theorem exportJson_of_history (s : Store) (wallet_id : String) (w : Hash)
    (h : List Transaction) (render : ℚ → String) (now : Nat)
    (hw : s (walletKey wallet_id) = some (.hash w)) (hh : HasHistory s wallet_id h) :
    exportTransactionHistory noFault render wallet_id none now s
      = .exportJson wallet_id now h.length h := by
  simp [exportTransactionHistory, noFault, existsKey, hw, lRange_all_of_history hh]

theorem exportCsv_of_history (s : Store) (wallet_id : String) (w : Hash)
    (h : List Transaction) (render : ℚ → String) (format : String) (now : Nat)
    (hw : s (walletKey wallet_id) = some (.hash w)) (hh : HasHistory s wallet_id h)
    (hf : format.toLower = "csv") :
    exportTransactionHistory noFault render wallet_id (some format) now s
      = .exportCsv wallet_id
          (csvHeaders ++ String.intercalate "\n" (h.map (csvRow render))) := by
  simp [exportTransactionHistory, noFault, existsKey, hw, lRange_all_of_history hh,
    hf]

/-! ## The latest timestamp -/


theorem summaryStep_last (acc : SummaryAcc) (tx : Transaction) :
    (summaryStep acc tx).lastTransactionTimestamp
      = match acc.lastTransactionTimestamp with
        | none => some tx.timestamp
        | some last => some (max last tx.timestamp) := by
  unfold summaryStep
  cases hl : acc.lastTransactionTimestamp with
  | none => cases tx.type <;> simp
  | some last =>
    by_cases h0 : last = 0
    · subst h0
      cases tx.type <;> simp
    · by_cases hgt : tx.timestamp > last
      · have hmax : max last tx.timestamp = tx.timestamp := max_eq_right (le_of_lt hgt)
        cases tx.type <;> simp [h0, hgt, hmax]
      · have hmax : max last tx.timestamp = last := max_eq_left (not_lt.mp hgt)
        cases tx.type <;> simp [h0, hgt, hmax, hl]

theorem foldl_summaryStep_last (l : List Transaction) :
    ∀ (acc : SummaryAcc) (prev : Nat), acc.lastTransactionTimestamp = some prev →
      ∃ m, (l.foldl summaryStep acc).lastTransactionTimestamp = some m
        ∧ (m = prev ∨ ∃ tx ∈ l, tx.timestamp = m)
        ∧ prev ≤ m ∧ ∀ tx ∈ l, tx.timestamp ≤ m := by
  induction l with
  | nil =>
    intro acc prev hacc
    exact ⟨prev, hacc, Or.inl rfl, le_refl _, by simp⟩
  | cons t rest ih =>
    intro acc prev hacc
    have hstep : (summaryStep acc t).lastTransactionTimestamp = some (max prev t.timestamp) := by
      rw [summaryStep_last, hacc]
    obtain ⟨m, hm, hmem, hge, hall⟩ := ih (summaryStep acc t) (max prev t.timestamp) hstep
    refine ⟨m, hm, ?_, le_trans (le_max_left _ _) hge, ?_⟩
    · rcases hmem with h1 | ⟨tx, htx, h2⟩
      · rcases max_choice prev t.timestamp with hc | hc
        · exact Or.inl (by rw [h1, hc])
        · exact Or.inr ⟨t, List.mem_cons_self _ _, by rw [h1, hc]⟩
      · exact Or.inr ⟨tx, List.mem_cons_of_mem _ htx, h2⟩
    · intro tx htx
      rcases List.mem_cons.mp htx with rfl | hin
      · exact le_trans (le_max_right _ _) hge
      · exact hall tx hin

theorem summary_last_is_max (t : Transaction) (rest : List Transaction) (c d : ℚ) :
    ∃ m, ((t :: rest).foldl summaryStep
        { totalCredits := c, totalDebits := d, lastTransactionTimestamp := none }
        ).lastTransactionTimestamp = some m
      ∧ (∃ tx ∈ t :: rest, tx.timestamp = m) ∧ ∀ tx ∈ t :: rest, tx.timestamp ≤ m := by
  have hstep : (summaryStep
      { totalCredits := c, totalDebits := d, lastTransactionTimestamp := none } t
      ).lastTransactionTimestamp = some t.timestamp := by
    rw [summaryStep_last]
  obtain ⟨m, hm, hmem, hge, hall⟩ := foldl_summaryStep_last rest _ t.timestamp hstep
  refine ⟨m, hm, ?_, ?_⟩
  · rcases hmem with h1 | ⟨tx, htx, h2⟩
    · exact ⟨t, List.mem_cons_self _ _, h1.symm⟩
    · exact ⟨tx, List.mem_cons_of_mem _ htx, h2⟩
  · intro tx htx
    rcases List.mem_cons.mp htx with rfl | hin
    · exact hge
    · exact hall tx hin

/-! ## What a write leaves alone -/

theorem records_update (s : Store) (u : String) (v1 v2 : Option Value)
    (hs : RecordsComplete s) (hv2 : ∀ w, v2 ≠ some (.hash w))
    (hv1 : ∀ w, v1 = some (.hash w) → w.wallet_id = some u ∧ w.balance.isSome = true) :
    RecordsComplete (Function.update (Function.update s (walletKey u) v1) (txKey u) v2) := by
  intro u1 w hw
  by_cases h2 : walletKey u1 = txKey u
  · rw [h2, Function.update_same] at hw
    exact absurd hw (hv2 w)
  · rw [Function.update_noteq h2] at hw
    by_cases h1 : u1 = u
    · subst h1
      rw [Function.update_same] at hw
      exact hv1 w hw
    · rw [Function.update_noteq (fun hc => h1 (walletKey_injective hc))] at hw
      exact hs u1 w hw

theorem step_records (op : Op) (s : Store) (hadm : op.admissible s)
    (hk : HashKeysAreWalletKeys s) (hs : RecordsComplete s) : RecordsComplete (step op s) := by
  cases op with
  | assign walletId now =>
    simp only [step]
    rw [createWallet_shape s walletId now hadm.2]
    intro u1 w hw
    by_cases h1 : u1 = walletId
    · subst h1
      rw [Function.update_same] at hw
      simp only [Option.some.injEq, Value.hash.injEq] at hw
      subst hw
      exact ⟨rfl, rfl⟩
    · rw [Function.update_noteq (fun hc => h1 (walletKey_injective hc))] at hw
      exact hs u1 w hw
  | credit wallet_id parsedAmount reason now transaction_id =>
    simp only [step]
    rcases creditRoute_shape s hk wallet_id parsedAmount reason now transaction_id with
      h | ⟨a, w, _, _, hw, h⟩
    · rw [h]; exact hs
    · rw [h]
      refine records_update s wallet_id _ _ hs (by simp) ?_
      intro w1 hw1
      simp only [Option.some.injEq, Value.hash.injEq] at hw1
      subst hw1
      exact ⟨(hs wallet_id w hw).1, rfl⟩
  | debit wallet_id parsedAmount reason now transaction_id =>
    simp only [step]
    rcases debitRoute_shape s hk wallet_id parsedAmount reason now transaction_id with
      h | ⟨a, w, _, _, hw, h⟩
    · rw [h]; exact hs
    · rw [h]
      refine records_update s wallet_id _ _ hs (by simp) ?_
      intro w1 hw1
      simp only [Option.some.injEq, Value.hash.injEq] at hw1
      subst hw1
      exact ⟨(hs wallet_id w hw).1, rfl⟩
  | reset wallet_id now =>
    simp only [step]
    rcases resetWallet_shape s wallet_id now with h | ⟨w, hw, h⟩
    · rw [h]; exact hs
    · rw [h]
      refine records_update s wallet_id _ _ hs (by simp) ?_
      intro w1 hw1
      simp only [Option.some.injEq, Value.hash.injEq] at hw1
      subst hw1
      exact ⟨(hs wallet_id w hw).1, rfl⟩
  | delete wallet_id now =>
    simp only [step]
    rcases deleteWallet_shape s wallet_id now with h | h
    · rw [h]; exact hs
    · rw [h]
      exact records_update s wallet_id _ _ hs (by simp) (by simp)
  | balance _ => exact hs
  | transactions _ _ _ => exact hs
  | summary _ => exact hs
  | exportHistory _ _ _ => exact hs

theorem reachable_records {s : Store} (h : Reachable s) : RecordsComplete s := by
  induction h with
  | empty =>
    intro u w hw
    simp [emptyStore] at hw
  | next op hs hadm ih => exact step_records op _ hadm (reachable_hashKeys hs) ih

theorem sameElsewhere_update (s : Store) (u : String) (v1 v2 : Option Value)
    (hk : HashKeysAreWalletKeys s) (hu : walletIdSchema u = true) :
    SameElsewhere s (Function.update (Function.update s (walletKey u) v1) (txKey u) v2) u := by
  intro other hne hhash
  obtain ⟨u2, hu2, hkey⟩ := hk _ hhash
  have ho : other = u2 := walletKey_injective hkey
  subst ho
  have h1 : walletKey other ≠ walletKey u := fun hc => hne (walletKey_injective hc)
  have h2 : walletKey other ≠ txKey u := walletKey_ne_txKey_of_uuid hu2 hu
  have h3 : txKey other ≠ walletKey u := fun hc => walletKey_ne_txKey_of_uuid hu hu2 hc.symm
  have h4 : txKey other ≠ txKey u := fun hc => hne (txKey_injective hc)
  constructor
  · rw [Function.update_noteq h2, Function.update_noteq h1]
  · rw [Function.update_noteq h4, Function.update_noteq h3]

theorem reachable_wallet_uuid {s : Store} (hr : Reachable s) {wallet_id : String} {w : Hash}
    (hw : s (walletKey wallet_id) = some (.hash w)) : walletIdSchema wallet_id = true := by
  obtain ⟨u, hu, hkey⟩ := reachable_hashKeys hr _ ⟨w, hw⟩
  rw [walletKey_injective hkey]
  exact hu

theorem resetWallet_ok (s : Store) (wallet_id : String) (w : Hash) (now : Nat)
    (hw : s (walletKey wallet_id) = some (.hash w)) :
    resetWallet noFault wallet_id now s
      = (.resetOk wallet_id 0 now,
          Function.update
            (Function.update s (walletKey wallet_id)
              (some (.hash (w.merge (balancePatch 0 now)))))
            (txKey wallet_id) none) := by
  simp [resetWallet, noFault, existsKey, hw, hSet, del]

/-! ## Summary totals and the balance -/

theorem signedAmount_sum (h : List Transaction) :
    (h.map signedAmount).sum
      = ((h.filter (fun tx => tx.type = .credit)).map (fun tx => tx.amount)).sum
        - ((h.filter (fun tx => tx.type = .debit)).map (fun tx => tx.amount)).sum := by
  induction h with
  | nil => simp
  | cons t rest ih =>
    cases hty : t.type <;>
      simp [List.filter_cons, hty, signedAmount, ih] <;> ring

theorem getWalletSummary_totals (s : Store) (wallet_id : String) (w : Hash)
    (h : List Transaction) (hw : s (walletKey wallet_id) = some (.hash w))
    (hne : w.isEmpty = false) (hh : HasHistory s wallet_id h) :
    ∃ sm : Summary, getWalletSummary noFault wallet_id s = .summaryOk sm
      ∧ sm.balance = w.balance
      ∧ sm.total_credits
          = ((h.filter (fun tx => tx.type = .credit)).map (fun tx => tx.amount)).sum
      ∧ sm.total_debits
          = ((h.filter (fun tx => tx.type = .debit)).map (fun tx => tx.amount)).sum := by
  unfold getWalletSummary
  simp only [noFault, hGetAll, hw, hne, lRange_all_of_history hh,
    Bool.false_eq_true, if_false]
  refine ⟨_, rfl, rfl, ?_, ?_⟩
  · simp only [foldl_summaryStep_credits, zero_add]
  · simp only [foldl_summaryStep_debits, zero_add]

theorem summary_balance_of_wellFormed_deletes (ops : List Op)
    (hadm : admissibleRun ops emptyStore) (hdel : ∀ op ∈ ops, op.deleteIdWellFormed)
    (wallet_id : String) (w : Hash)
    (hw : run ops emptyStore (walletKey wallet_id) = some (.hash w)) :
    ∃ sm : Summary, getWalletSummary noFault wallet_id (run ops emptyStore) = .summaryOk sm
      ∧ sm.balance = some (sm.total_credits - sm.total_debits) := by
  obtain ⟨hk, _, hrep⟩ := run_ledger ops emptyStore ledger_emptyStore hadm hdel
  obtain ⟨u, hu, hkey⟩ := hk _ ⟨w, hw⟩
  have hid : walletIdSchema wallet_id = true := by
    rw [walletKey_injective hkey]; exact hu
  have hbal := (hrep wallet_id w hw).2
  obtain ⟨sm, hsm, h1, h2, h3⟩ := getWalletSummary_totals _ wallet_id w _ hw
    (isEmpty_of_balance hbal) (hasHistory_of_hashKeys hk hid)
  refine ⟨sm, hsm, ?_⟩
  rw [h1, hbal, h2, h3, signedAmount_sum]

/-! ## Limit and offset -/

theorem parseIntOr_safe (parsed : Option Int) (d : Int) (hp : safeParameter parsed)
    (hd : -maxSafeInteger ≤ d ∧ d ≤ maxSafeInteger) :
    -maxSafeInteger ≤ parseIntOr parsed d ∧ parseIntOr parsed d ≤ maxSafeInteger := by
  unfold parseIntOr
  cases parsed with
  | none => exact hd
  | some n =>
    simp only
    split
    · exact hd
    · exact hp n rfl

theorem getTransactions_any (s : Store) (wallet_id : String) (w : Hash)
    (h : List Transaction) (limit offset : Option Int)
    (hw : s (walletKey wallet_id) = some (.hash w)) (hh : HasHistory s wallet_id h)
    (hstart : isInt64 (-(parseIntOr offset 0 + parseIntOr limit 20)) = true)
    (hstop : isInt64 (-(parseIntOr offset 0 + 1)) = true) :
    getTransactions noFault wallet_id limit offset s
      = .transactionsOk wallet_id
          (if (lRangeItems h (-(parseIntOr offset 0 + parseIntOr limit 20))
                (-(parseIntOr offset 0 + 1))).reverse = [] then none
            else some (lRangeItems h (-(parseIntOr offset 0 + parseIntOr limit 20))
                (-(parseIntOr offset 0 + 1))).reverse.length)
          (lRangeItems h (-(parseIntOr offset 0 + parseIntOr limit 20))
            (-(parseIntOr offset 0 + 1))).reverse := by
  unfold getTransactions
  simp only [noFault, existsKey, hw, lRange_of_history hh _ _ hstart hstop,
    Bool.false_eq_true, if_false, Option.isSome_some, Bool.not_true]
  generalize lRangeItems h (-(parseIntOr offset 0 + parseIntOr limit 20))
    (-(parseIntOr offset 0 + 1)) = page
  cases page <;> simp

theorem getTransactions_safe (s : Store) (wallet_id : String) (w : Hash)
    (h : List Transaction) (limit offset : Option Int)
    (hw : s (walletKey wallet_id) = some (.hash w)) (hh : HasHistory s wallet_id h)
    (hl : safeParameter limit) (ho : safeParameter offset) :
    getTransactions noFault wallet_id limit offset s
      = .transactionsOk wallet_id
          (if (lRangeItems h (-(parseIntOr offset 0 + parseIntOr limit 20))
                (-(parseIntOr offset 0 + 1))).reverse = [] then none
            else some (lRangeItems h (-(parseIntOr offset 0 + parseIntOr limit 20))
                (-(parseIntOr offset 0 + 1))).reverse.length)
          (lRangeItems h (-(parseIntOr offset 0 + parseIntOr limit 20))
            (-(parseIntOr offset 0 + 1))).reverse := by
  have h1 := parseIntOr_safe limit 20 hl (by decide)
  have h2 := parseIntOr_safe offset 0 ho (by decide)
  simp only [maxSafeInteger] at h1 h2
  exact getTransactions_any s wallet_id w h limit offset hw hh
    (isInt64_of_bounds (by omega) (by omega)) (isInt64_of_bounds (by omega) (by omega))

theorem getTransactions_safe_page (s : Store) (wallet_id : String) (w : Hash)
    (h : List Transaction) (limit offset : Int)
    (hw : s (walletKey wallet_id) = some (.hash w)) (hh : HasHistory s wallet_id h)
    (hl : 1 ≤ limit) (ho : 0 ≤ offset) (hb : offset + limit ≤ maxSafeInteger) :
    getTransactions noFault wallet_id (some limit) (some offset) s
      = .transactionsOk wallet_id
          (if (h.reverse.drop offset.toNat).take limit.toNat = [] then none
            else some ((h.reverse.drop offset.toNat).take limit.toNat).length)
          ((h.reverse.drop offset.toNat).take limit.toNat) := by
  simp only [maxSafeInteger] at hb
  exact getTransactions_page s wallet_id w h limit offset hw hh hl ho (by omega)

theorem getTransactions_all (s : Store) (wallet_id : String) (w : Hash)
    (h : List Transaction) (limit : Int)
    (hw : s (walletKey wallet_id) = some (.hash w)) (hh : HasHistory s wallet_id h)
    (hl : 1 ≤ limit) (hlen : (h.length : Int) ≤ limit) (hb : limit ≤ maxSafeInteger) :
    getTransactions noFault wallet_id (some limit) (some 0) s
      = .transactionsOk wallet_id (if h.reverse = [] then none else some h.reverse.length)
          h.reverse := by
  rw [getTransactions_safe_page s wallet_id w h limit 0 hw hh hl (le_refl 0)
    (by rw [zero_add]; exact hb)]
  have e : (h.reverse.drop (0 : Int).toNat).take limit.toNat = h.reverse := by
    simp only [Int.toNat_zero, List.drop_zero]
    apply List.take_of_length_le
    rw [List.length_reverse]
    omega
  rw [e]

theorem getTransactions_defaults (wallet_id : String) (limit offset : Option Int) (s : Store) :
    getTransactions noFault wallet_id none offset s
        = getTransactions noFault wallet_id (some 20) offset s
      ∧ getTransactions noFault wallet_id (some 0) offset s
        = getTransactions noFault wallet_id (some 20) offset s
      ∧ getTransactions noFault wallet_id limit none s
        = getTransactions noFault wallet_id limit (some 0) s := ⟨rfl, rfl, rfl⟩

/-! ## Paging -/

theorem rangePage_eq (s : Store) (wallet_id : String) (w : Hash) (h : List Transaction)
    (k i : Nat) (hw : s (walletKey wallet_id) = some (.hash w))
    (hh : HasHistory s wallet_id h) (hk : 1 ≤ k)
    (hb : ((i * k : Nat) : Int) + (k : Int) ≤ maxSafeInteger) :
    getTransactions noFault wallet_id (some (k : Int)) (some ((i * k : Nat) : Int)) s
        = .transactionsOk wallet_id
            (if (h.reverse.drop (i * k)).take k = [] then none
              else some ((h.reverse.drop (i * k)).take k).length)
            ((h.reverse.drop (i * k)).take k)
      ∧ rangePage s wallet_id k i = (h.reverse.drop (i * k)).take k := by
  have e := getTransactions_safe_page s wallet_id w h (k : Int) ((i * k : Nat) : Int) hw hh
    (by exact_mod_cast hk) (Int.ofNat_nonneg _) hb
  simp only [Int.toNat_ofNat] at e
  refine ⟨e, ?_⟩
  unfold rangePage
  rw [e]
  rfl

theorem readPages_of_windows (r : List Transaction) (k : Nat) (hk : 1 ≤ k)
    (page : Nat → List Transaction)
    (hpage : ∀ j, j * k < r.length + k → page j = (r.drop (j * k)).take k) :
    ∀ fuel i, i * k < r.length + k → r.length - i * k < fuel →
      readPages page fuel i = r.drop (i * k) := by
  intro fuel
  induction fuel with
  | zero => intro i _ h; omega
  | succ fuel ih =>
    intro i hi h
    simp only [readPages]
    rw [hpage i hi]
    by_cases hempty : (r.drop (i * k)).take k = []
    · rw [if_pos hempty]
      rcases List.take_eq_nil_iff.mp hempty with h0 | h0
      · omega
      · exact h0.symm
    · rw [if_neg hempty]
      have hlt : i * k < r.length := by
        by_contra hge
        exact hempty (by rw [List.drop_eq_nil_of_le (by omega)]; exact List.take_nil)
      have hmul : (i + 1) * k = i * k + k := by ring
      have hnext : r.length - (i + 1) * k < fuel := by omega
      rw [ih (i + 1) (by omega) hnext]
      have hdd : r.drop ((i + 1) * k) = (r.drop (i * k)).drop k := by
        rw [List.drop_drop, hmul, Nat.add_comm]
      rw [hdd, List.take_append_drop]

theorem first_empty_page (n k : Nat) (hk : 1 ≤ k) :
    (n + k - 1) / k ≤ n ∧ (n + k - 1) / k * k < n + k ∧ n ≤ (n + k - 1) / k * k := by
  have h1 : (n + k - 1) / k * k ≤ n + k - 1 := Nat.div_mul_le_self _ _
  have h2 : n + k - 1 < ((n + k - 1) / k + 1) * k := by
    have := @Nat.lt_div_mul_add (n + k - 1) k (by omega)
    calc n + k - 1 < (n + k - 1) / k * k + k := this
      _ = ((n + k - 1) / k + 1) * k := by ring
  have h3 : ((n + k - 1) / k + 1) * k = (n + k - 1) / k * k + k := by ring
  refine ⟨?_, by omega, by omega⟩
  by_contra hgt
  have h4 : (n + 1) * k ≤ (n + k - 1) / k * k := Nat.mul_le_mul_right k (by omega)
  have h5 : n + k ≤ (n + 1) * k := by
    have : (n + 1) * k = n * k + k := by ring
    have : n ≤ n * k := Nat.le_mul_of_pos_right _ hk
    omega
  omega

theorem windows_disjoint (r : List Transaction) (hr : r.Nodup) (k i j : Nat) (hij : i < j) :
    List.Disjoint ((r.drop (i * k)).take k) ((r.drop (j * k)).take k) := by
  have hle : (i + 1) * k ≤ j * k := Nat.mul_le_mul_right k hij
  have hbase : List.Disjoint (r.take ((i + 1) * k)) (r.drop ((i + 1) * k)) :=
    List.disjoint_take_drop hr (le_refl _)
  intro x hx hy
  refine @hbase x ?_ ?_
  · have e : (r.drop (i * k)).take k = (r.take ((i + 1) * k)).drop (i * k) := by
      rw [List.drop_take]
      congr 1
      have : (i + 1) * k = i * k + k := by ring
      omega
    rw [e] at hx
    exact List.mem_of_mem_drop hx
  · have hy1 : x ∈ r.drop (j * k) := List.mem_of_mem_take hy
    have e : r.drop (j * k) = (r.drop ((i + 1) * k)).drop (j * k - (i + 1) * k) := by
      rw [List.drop_drop]
      congr 1
      omega
    rw [e] at hy1
    exact List.mem_of_mem_drop hy1

/-! ## The claims -/

/-- C1: after every step of every sequence of requests served one after another
from the empty store, credit and debit requests going through their validation
middleware, every stored wallet balance is at least 0. -/
theorem C1_balance_never_negative (ops : List Op) (k : Nat) (wallet_id : String) (h : Hash)
    (b : ℚ) (hw : run (ops.take k) emptyStore (walletKey wallet_id) = some (.hash h))
    (hb : h.balance = some b) : 0 ≤ b :=
  run_nonNeg (ops.take k) emptyStore nonNeg_emptyStore (walletKey wallet_id) h b hw hb

/-- Witness of C1: a wallet is created, credited 5 and debited 5; after these
three steps of a run of four its stored balance is 0, which is at least 0. -/
theorem C1_balance_never_negative_witness :
    run (([.assign sampleId 1, .credit sampleId (.fin 5) none 2 "t1",
          .debit sampleId (.fin 5) none 3 "t2", .debit sampleId (.fin 1) none 4 "t3"]
          : List Op).take 3) emptyStore (walletKey sampleId)
        = some (.hash
            { wallet_id := some sampleId, balance := some 0, created_at := some 1,
              last_updated := some 3 })
      ∧ (0 : ℚ) ≤ 0 :=
  ⟨by decide!,
    C1_balance_never_negative
      [.assign sampleId 1, .credit sampleId (.fin 5) none 2 "t1",
        .debit sampleId (.fin 5) none 3 "t2", .debit sampleId (.fin 1) none 4 "t3"]
      3 sampleId
      { wallet_id := some sampleId, balance := some 0, created_at := some 1,
        last_updated := some 3 }
      0 (by decide!) rfl⟩

/-- C2, evaluated at a failing run: a wallet is created and credited 100, then
the delete route is called with the wallet id followed by `:tx`.  The state is
reachable, the wallet record still has balance 100, its transaction list is
gone, and the replay property fails. -/
theorem C2_replay_broken_by_delete_of_list_key :
    Reachable (run [.assign sampleId 1, .credit sampleId (.fin 100) none 2 "t1",
        .delete (sampleId ++ ":tx") 3] emptyStore)
      ∧ run [.assign sampleId 1, .credit sampleId (.fin 100) none 2 "t1",
          .delete (sampleId ++ ":tx") 3] emptyStore (walletKey sampleId)
        = some (.hash
            { wallet_id := some sampleId, balance := some 100, created_at := some 1,
              last_updated := some 2 })
      ∧ storedHistory (run [.assign sampleId 1, .credit sampleId (.fin 100) none 2 "t1",
          .delete (sampleId ++ ":tx") 3] emptyStore) sampleId = []
      ∧ ¬ ReplayConsistent (run [.assign sampleId 1, .credit sampleId (.fin 100) none 2 "t1",
          .delete (sampleId ++ ":tx") 3] emptyStore) := by
  have hrec : run [.assign sampleId 1, .credit sampleId (.fin 100) none 2 "t1",
          .delete (sampleId ++ ":tx") 3] emptyStore (walletKey sampleId)
        = some (.hash
            { wallet_id := some sampleId, balance := some 100, created_at := some 1,
              last_updated := some 2 }) := by decide!
  have hhist : storedHistory (run [.assign sampleId 1, .credit sampleId (.fin 100) none 2 "t1",
          .delete (sampleId ++ ":tx") 3] emptyStore) sampleId = [] := by decide!
  refine ⟨?_, hrec, hhist, ?_⟩
  · refine reachable_run _ emptyStore Reachable.empty ?_
    exact ⟨⟨by decide, rfl⟩, trivial, trivial, trivial⟩
  · intro hcons
    have h2 := (hcons sampleId _ hrec).2
    rw [hhist] at h2
    simp at h2

/-- C3: a debit of a valid amount larger than the balance of an existing wallet
is answered with "Insufficient funds" carrying the current balance and the
requested amount, and the store is left as it was. -/
theorem C3_debit_insufficient_funds (s : Store) (wallet_id : String) (h : Hash) (b a : ℚ)
    (parsedAmount : JsNumber) (reason : Option String) (now : Nat) (transaction_id : String)
    (hw : s (walletKey wallet_id) = some (.hash h)) (hb : h.balance = some b)
    (hv : validateDebit wallet_id parsedAmount reason = .ok a) (hab : b < a) :
    debitRoute noFault wallet_id parsedAmount reason now transaction_id s
      = (.insufficientFunds b a, s) := by
  have hne : h.isEmpty = false := by simp [Hash.isEmpty, hb]
  simp [debitRoute, hv, debitWallet, debitPlan, noFault, hGetAll, hw, hne, hb, hab]

/-- Witness of C3: a wallet holding 100 is asked for 150. -/
theorem C3_debit_insufficient_funds_witness :
    debitRoute noFault sampleId (.fin 150) none 3 "t2"
        (run [.assign sampleId 1, .credit sampleId (.fin 100) none 2 "t1"] emptyStore)
      = (.insufficientFunds 100 150,
          run [.assign sampleId 1, .credit sampleId (.fin 100) none 2 "t1"] emptyStore) :=
  C3_debit_insufficient_funds
    (run [.assign sampleId 1, .credit sampleId (.fin 100) none 2 "t1"] emptyStore) sampleId
    { wallet_id := some sampleId, balance := some 100, created_at := some 1,
      last_updated := some 2 }
    100 150 (.fin 150) none 3 "t2" (by decide!) rfl (by decide!) (by norm_num)

/-- C4, as stated, evaluated where it fails: a wallet has three transactions and
its transactions are asked for with limit 10^21 and offset 0.  The index sent
to the store is not a 64-bit integer, the store answers with an error and the
route answers 500, not the three transactions. -/
theorem C4_huge_limit_fails :
    walletOf3 (walletKey sampleId)
        = some (.hash
            { wallet_id := some sampleId, balance := some 60, created_at := some 1,
              last_updated := some 4 })
      ∧ walletOf3 (txKey sampleId)
        = some (.list [newTransaction "t1" .credit 10 none 2 10,
            newTransaction "t2" .credit 20 none 3 30,
            newTransaction "t3" .credit 30 none 4 60])
      ∧ getTransactions noFault sampleId (some hugeLimit) (some 0) walletOf3 = .serverError
      ∧ (([newTransaction "t1" .credit 10 none 2 10, newTransaction "t2" .credit 20 none 3 30,
            newTransaction "t3" .credit 30 none 4 60].reverse.drop (0 : Int).toNat).take
              hugeLimit.toNat).length = 3 := by
  refine ⟨?_, ?_, ?_, ?_⟩ <;> decide!

/-- C4, amended: for an existing wallet with transaction list `h` (oldest
first), a limit of at least 1 and an offset of at least 0 whose sum is a safe
integer (at most 2^53 - 1), the transactions route returns exactly
`take limit (drop offset (reverse h))`, newest first, truncated to what is
available and empty when the offset reaches the length of `h`.  For a list of
five transactions, (2, 0) gives the fifth and the fourth, and (2, 2) the third
and the second. -/
theorem C4_get_range_is_take_drop_reverse (s : Store) (wallet_id : String) (w : Hash)
    (h : List Transaction) (limit offset : Int)
    (hw : s (walletKey wallet_id) = some (.hash w)) (hh : HasHistory s wallet_id h)
    (hl : 1 ≤ limit) (ho : 0 ≤ offset) (hb : offset + limit ≤ maxSafeInteger) :
    (getTransactions noFault wallet_id (some limit) (some offset) s
      = .transactionsOk wallet_id
          (if (h.reverse.drop offset.toNat).take limit.toNat = [] then none
            else some ((h.reverse.drop offset.toNat).take limit.toNat).length)
          ((h.reverse.drop offset.toNat).take limit.toNat))
    ∧ (h.length ≤ offset.toNat → (h.reverse.drop offset.toNat).take limit.toNat = [])
    ∧ (∀ t1 t2 t3 t4 t5 : Transaction, h = [t1, t2, t3, t4, t5] →
        getTransactions noFault wallet_id (some 2) (some 0) s
            = .transactionsOk wallet_id (some 2) [t5, t4]
          ∧ getTransactions noFault wallet_id (some 2) (some 2) s
            = .transactionsOk wallet_id (some 2) [t3, t2]) := by
  refine ⟨getTransactions_safe_page s wallet_id w h limit offset hw hh hl ho hb, ?_, ?_⟩
  · intro hlen
    rw [List.drop_eq_nil_of_le (by simpa using hlen)]
    exact List.take_nil
  · intro t1 t2 t3 t4 t5 hfive
    subst hfive
    constructor
    · rw [getTransactions_safe_page s wallet_id w _ 2 0 hw hh (by decide) (by decide)
        (by decide)]
      simp
    · rw [getTransactions_safe_page s wallet_id w _ 2 2 hw hh (by decide) (by decide)
        (by decide)]
      simp

/-- Witness of C4: a wallet credited 10, 20 and 30 is asked for one transaction
after skipping the newest. -/
theorem C4_get_range_is_take_drop_reverse_witness :
    getTransactions noFault sampleId (some 1) (some 1) walletOf3
      = .transactionsOk sampleId (some 1) [newTransaction "t2" .credit 20 none 3 30] :=
  (C4_get_range_is_take_drop_reverse walletOf3 sampleId
    { wallet_id := some sampleId, balance := some 60, created_at := some 1,
      last_updated := some 4 }
    [newTransaction "t1" .credit 10 none 2 10, newTransaction "t2" .credit 20 none 3 30,
      newTransaction "t3" .credit 30 none 4 60]
    1 1 (by decide!) (Or.inl (by decide!)) (by decide) (by decide) (by decide)).1

/-- C7: for an existing wallet with transaction list `h`, the summary route
returns the sum of the credit amounts, the sum of the debit amounts, the length
of `h`, their average size (0 for an empty list) and the stored balance.  A
wallet credited 100 and then debited 30 gets 100, 30, 2, 65 and balance 70. -/
theorem C7_summary_totals (s : Store) (wallet_id : String) (w : Hash) (b : ℚ)
    (h : List Transaction) (hw : s (walletKey wallet_id) = some (.hash w))
    (hb : w.balance = some b) (hh : HasHistory s wallet_id h) :
    (∃ sm : Summary, getWalletSummary noFault wallet_id s = .summaryOk sm
      ∧ sm.total_credits
          = ((h.filter (fun tx => tx.type = .credit)).map (fun tx => tx.amount)).sum
      ∧ sm.total_debits
          = ((h.filter (fun tx => tx.type = .debit)).map (fun tx => tx.amount)).sum
      ∧ sm.transaction_count = h.length
      ∧ sm.average_transaction_size
          = (if h = [] then 0
             else (((h.filter (fun tx => tx.type = .credit)).map (fun tx => tx.amount)).sum
                + ((h.filter (fun tx => tx.type = .debit)).map (fun tx => tx.amount)).sum)
               / (h.length : ℚ))
      ∧ sm.balance = some b)
    ∧ getWalletSummary noFault sampleId
        (run [.assign sampleId 1, .credit sampleId (.fin 100) none 2 "t1",
          .debit sampleId (.fin 30) none 3 "t2"] emptyStore)
      = .summaryOk
          { wallet_id := sampleId, balance := some 70, total_credits := 100,
            total_debits := 30, transaction_count := 2, average_transaction_size := 65,
            last_transaction_timestamp := some 3, created_at := some 1,
            last_updated := some 3 } := by
  refine ⟨?_, by decide!⟩
  have hne : w.isEmpty = false := by simp [Hash.isEmpty, hb]
  have hsum : getWalletSummary noFault wallet_id s
      = .summaryOk
          { wallet_id := wallet_id
            balance := w.balance
            total_credits := (h.foldl summaryStep
              { totalCredits := 0, totalDebits := 0, lastTransactionTimestamp := none }).totalCredits
            total_debits := (h.foldl summaryStep
              { totalCredits := 0, totalDebits := 0, lastTransactionTimestamp := none }).totalDebits
            transaction_count := h.length
            average_transaction_size :=
              if h.length > 0 then
                ((h.foldl summaryStep
                    { totalCredits := 0, totalDebits := 0,
                      lastTransactionTimestamp := none }).totalCredits
                  + (h.foldl summaryStep
                    { totalCredits := 0, totalDebits := 0,
                      lastTransactionTimestamp := none }).totalDebits) / (h.length : ℚ)
              else 0
            last_transaction_timestamp := (h.foldl summaryStep
              { totalCredits := 0, totalDebits := 0,
                lastTransactionTimestamp := none }).lastTransactionTimestamp
            created_at := w.created_at
            last_updated := w.last_updated } := by
    unfold getWalletSummary
    simp only [noFault, hGetAll, hw, hne, lRange_all_of_history hh,
      Bool.false_eq_true, if_false]
  refine ⟨_, hsum, ?_, ?_, rfl, ?_, hb⟩
  · simp only [foldl_summaryStep_credits, zero_add]
  · simp only [foldl_summaryStep_debits, zero_add]
  · simp only [foldl_summaryStep_credits, foldl_summaryStep_debits, zero_add]
    cases h with
    | nil => simp
    | cons t rest => simp

/-- Witness of C7: the summary of a wallet credited 8 and debited 2. -/
theorem C7_summary_totals_witness :
    ∃ sm : Summary, getWalletSummary noFault sampleId
        (run [.assign sampleId 1, .credit sampleId (.fin 8) none 2 "t1",
          .debit sampleId (.fin 2) none 3 "t2"] emptyStore) = .summaryOk sm
      ∧ sm.transaction_count = 2 ∧ sm.balance = some 6 := by
  obtain ⟨sm, h1, _, _, h4, _, h6⟩ := (C7_summary_totals
    (run [.assign sampleId 1, .credit sampleId (.fin 8) none 2 "t1",
      .debit sampleId (.fin 2) none 3 "t2"] emptyStore)
    sampleId
    { wallet_id := some sampleId, balance := some 6, created_at := some 1,
      last_updated := some 3 }
    6
    [{ transaction_id := "t1", type := .credit, amount := 8, reason := "",
       timestamp := 2, balance_after_transaction := 8 },
     { transaction_id := "t2", type := .debit, amount := 2, reason := "",
       timestamp := 3, balance_after_transaction := 6 }]
    (by decide!) rfl (Or.inl (by decide!))).1
  exact ⟨sm, h1, h4, h6⟩

/-- C8: in a reachable state, for an existing wallet with balance `b` and
stored transaction list `h`, a credit of a valid amount `a` followed by a debit of `a`
both succeed, the stored balance is `b` again, and the list is `h` followed by
a credit entry and a debit entry of amount `a` (two entries more). -/
theorem C8_credit_then_debit_restores_balance (s : Store) (wallet_id : String) (w : Hash)
    (b a : ℚ) (h : List Transaction) (parsedAmount : JsNumber) (reason1 reason2 : Option String)
    (now1 now2 : Nat) (tx1 tx2 : String)
    (hr : Reachable s) (hw : s (walletKey wallet_id) = some (.hash w))
    (hb : w.balance = some b) (hh : storedHistory s wallet_id = h)
    (hv1 : validateCredit wallet_id parsedAmount reason1 = .ok a)
    (hv2 : validateDebit wallet_id parsedAmount reason2 = .ok a) :
    (creditRoute noFault wallet_id parsedAmount reason1 now1 tx1 s).1
        = .creditOk wallet_id a (b + a) tx1 now1
      ∧ (debitRoute noFault wallet_id parsedAmount reason2 now2 tx2
          (creditRoute noFault wallet_id parsedAmount reason1 now1 tx1 s).2).1
        = .debitOk wallet_id a b tx2 now2
      ∧ (∃ w2 : Hash, (debitRoute noFault wallet_id parsedAmount reason2 now2 tx2
          (creditRoute noFault wallet_id parsedAmount reason1 now1 tx1 s).2).2
            (walletKey wallet_id) = some (.hash w2) ∧ w2.balance = some b)
      ∧ (∃ t1 t2 : Transaction, (debitRoute noFault wallet_id parsedAmount reason2 now2 tx2
          (creditRoute noFault wallet_id parsedAmount reason1 now1 tx1 s).2).2
            (txKey wallet_id) = some (.list (h ++ [t1, t2]))
          ∧ (h ++ [t1, t2]).length = h.length + 2
          ∧ t1.type = .credit ∧ t1.amount = a ∧ t2.type = .debit ∧ t2.amount = a) := by
  have hk : txKey wallet_id ≠ walletKey wallet_id := txKey_ne_walletKey wallet_id
  have hb0 : 0 ≤ b := reachable_nonNeg hr _ w b hw hb
  have hgd : w.balance.getD 0 = b := by rw [hb]; rfl
  have hh1 : HasHistory s wallet_id h := hh ▸ reachable_hasHistory hr (validateCredit_uuid hv1)
  have hc := creditWallet_ok s wallet_id w h a reason1 now1 tx1 hw (isEmpty_of_balance hb) hh1
  rw [hgd] at hc
  have hcr : creditRoute noFault wallet_id parsedAmount reason1 now1 tx1 s
      = creditWallet noFault wallet_id a reason1 now1 tx1 s := by
    simp only [creditRoute, hv1]
  rw [hcr, hc]
  have hw1 : (Function.update
           (Function.update s (walletKey wallet_id)
             (some (.hash (w.merge (balancePatch (b + a) now1)))))
           (txKey wallet_id)
           (some (.list (h ++ [newTransaction tx1 .credit a reason1 now1 (b + a)]))))
        (walletKey wallet_id) = some (.hash (w.merge (balancePatch (b + a) now1))) := by
    rw [Function.update_noteq hk.symm, Function.update_same]
  have hb1 : (w.merge (balancePatch (b + a) now1)).balance = some (b + a) := rfl
  have hd := debitWallet_ok _ wallet_id _ _ a reason2 now2 tx2 hw1 (isEmpty_of_balance hb1)
    (Or.inl (Function.update_same _ _ _)) (by rw [hb1]; simp [hb0])
  have hdr : ∀ st, debitRoute noFault wallet_id parsedAmount reason2 now2 tx2 st
      = debitWallet noFault wallet_id a reason2 now2 tx2 st := by
    intro st
    simp only [debitRoute, hv2]
  rw [hdr, hd, hb1]
  have e : (some (b + a) : Option ℚ).getD 0 - a = b := by simp
  rw [e]
  refine ⟨rfl, rfl, ⟨w.merge (balancePatch (b + a) now1) |>.merge (balancePatch b now2), ?_, rfl⟩,
    ⟨newTransaction tx1 .credit a reason1 now1 (b + a),
      newTransaction tx2 .debit a reason2 now2 b, ?_, by simp, rfl, rfl, rfl, rfl⟩⟩
  · dsimp only
    rw [Function.update_noteq hk.symm, Function.update_same]
  · dsimp only
    rw [Function.update_same, List.append_assoc]
    rfl

/-- Witness of C8: a wallet holding 10 is credited 5 and debited 5. -/
theorem C8_credit_then_debit_restores_balance_witness :
    (creditRoute noFault sampleId (.fin 5) none 3 "t2"
        (run [.assign sampleId 1, .credit sampleId (.fin 10) none 2 "t1"] emptyStore)).1
      = .creditOk sampleId 5 (10 + 5) "t2" 3 :=
  (C8_credit_then_debit_restores_balance
    (run [.assign sampleId 1, .credit sampleId (.fin 10) none 2 "t1"] emptyStore)
    sampleId
    { wallet_id := some sampleId, balance := some 10, created_at := some 1,
      last_updated := some 2 }
    10 5
    [{ transaction_id := "t1", type := .credit, amount := 10, reason := "",
       timestamp := 2, balance_after_transaction := 10 }]
    (.fin 5) none none 3 4 "t2" "t3"
    (reachable_run _ emptyStore Reachable.empty ⟨⟨by decide, rfl⟩, trivial, trivial⟩)
    (by decide!) rfl (by decide!) (by decide!) (by decide!)).1

/-- C9, as stated, evaluated where it fails: a wallet holding 100 is reset, with
success, and its transactions are then asked for with limit 10^21.  The index
sent to the store is not a 64-bit integer and the route answers 500, not an
empty sequence. -/
theorem C9_huge_limit_after_reset_fails :
    walletOf100 (walletKey sampleId)
        = some (.hash
            { wallet_id := some sampleId, balance := some 100, created_at := some 1,
              last_updated := some 2 })
      ∧ (resetWallet noFault sampleId 3 walletOf100).1 = .resetOk sampleId 0 3
      ∧ getTransactions noFault sampleId (some hugeLimit) none
          (resetWallet noFault sampleId 3 walletOf100).2 = .serverError := by
  refine ⟨?_, ?_, ?_⟩ <;> decide!

/-- C9, amended: a reset of an existing wallet, whatever its balance and its
transaction list, succeeds and leaves the wallet record with balance 0 and no
transaction list; the transactions route called next, with a limit and an
offset each absent, not numeric or a safe integer (at most 2^53 - 1 in absolute
value), answers with an empty sequence. -/
theorem C9_reset_then_empty_range (s : Store) (wallet_id : String) (w : Hash) (now : Nat)
    (hw : s (walletKey wallet_id) = some (.hash w)) :
    (resetWallet noFault wallet_id now s).1 = .resetOk wallet_id 0 now
      ∧ (resetWallet noFault wallet_id now s).2 (walletKey wallet_id)
          = some (.hash (w.merge (balancePatch 0 now)))
      ∧ (w.merge (balancePatch 0 now)).balance = some 0
      ∧ (resetWallet noFault wallet_id now s).2 (txKey wallet_id) = none
      ∧ storedHistory (resetWallet noFault wallet_id now s).2 wallet_id = []
      ∧ ∀ limit offset : Option Int, safeParameter limit → safeParameter offset →
          getTransactions noFault wallet_id limit offset (resetWallet noFault wallet_id now s).2
            = .transactionsOk wallet_id none [] := by
  have hk : walletKey wallet_id ≠ txKey wallet_id := walletKey_ne_txKey wallet_id
  have hres : resetWallet noFault wallet_id now s
      = (.resetOk wallet_id 0 now,
          del (Function.update s (walletKey wallet_id)
            (some (.hash (w.merge (balancePatch 0 now))))) (txKey wallet_id)) := by
    simp [resetWallet, noFault, existsKey, hw, hSet]
  rw [hres]
  have hrec : del (Function.update s (walletKey wallet_id)
      (some (.hash (w.merge (balancePatch 0 now))))) (txKey wallet_id) (walletKey wallet_id)
      = some (.hash (w.merge (balancePatch 0 now))) := by
    unfold del
    rw [Function.update_noteq hk, Function.update_same]
  have htx : del (Function.update s (walletKey wallet_id)
      (some (.hash (w.merge (balancePatch 0 now))))) (txKey wallet_id) (txKey wallet_id)
      = none := by
    unfold del
    rw [Function.update_same]
  refine ⟨rfl, hrec, rfl, htx, ?_, ?_⟩
  · simp only [storedHistory, htx]
  · intro limit offset hl ho
    rw [getTransactions_safe _ wallet_id _ [] limit offset hrec (Or.inr ⟨htx, rfl⟩) hl ho]
    simp [lRangeItems]

/-- Witness of C9: a wallet credited 100 is reset and its transactions are
asked for with limit 5 and no offset. -/
theorem C9_reset_then_empty_range_witness :
    getTransactions noFault sampleId (some 5) none
        (resetWallet noFault sampleId 3 walletOf100).2
      = .transactionsOk sampleId none [] :=
  (C9_reset_then_empty_range walletOf100 sampleId
    { wallet_id := some sampleId, balance := some 100, created_at := some 1,
      last_updated := some 2 }
    3 (by decide!)).2.2.2.2.2 (some 5) none
      (by intro n hn; cases hn; decide) (by intro n hn; cases hn)

/-- C10: a delete of an existing wallet succeeds and removes the wallet record
and its transaction list from the store; the balance, transactions, summary and
export routes called next on that wallet id all answer "Wallet not found". -/
theorem C10_delete_then_not_found (s : Store) (wallet_id : String) (w : Hash) (now : Nat)
    (hw : s (walletKey wallet_id) = some (.hash w)) :
    (deleteWallet noFault wallet_id now s).1 = .deleteOk wallet_id now
      ∧ (deleteWallet noFault wallet_id now s).2 (walletKey wallet_id) = none
      ∧ (deleteWallet noFault wallet_id now s).2 (txKey wallet_id) = none
      ∧ getWalletBalance noFault wallet_id (deleteWallet noFault wallet_id now s).2 = .notFound
      ∧ (∀ limit offset : Option Int,
          getTransactions noFault wallet_id limit offset (deleteWallet noFault wallet_id now s).2
            = .notFound)
      ∧ getWalletSummary noFault wallet_id (deleteWallet noFault wallet_id now s).2 = .notFound
      ∧ (∀ (render : ℚ → String) (format : Option String) (now1 : Nat),
          exportTransactionHistory noFault render wallet_id format now1
            (deleteWallet noFault wallet_id now s).2 = .notFound) := by
  have hk : walletKey wallet_id ≠ txKey wallet_id := walletKey_ne_txKey wallet_id
  have hres : deleteWallet noFault wallet_id now s
      = (.deleteOk wallet_id now, del (del s (walletKey wallet_id)) (txKey wallet_id)) := by
    simp [deleteWallet, noFault, existsKey, hw, commit, exec, Cmd.apply]
  rw [hres]
  have hrec : del (del s (walletKey wallet_id)) (txKey wallet_id) (walletKey wallet_id)
      = none := by
    unfold del
    rw [Function.update_noteq hk, Function.update_same]
  have htx : del (del s (walletKey wallet_id)) (txKey wallet_id) (txKey wallet_id) = none := by
    unfold del
    rw [Function.update_same]
  refine ⟨rfl, hrec, htx, ?_, ?_, ?_, ?_⟩
  · simp [getWalletBalance, noFault, hGetAll, hrec, Hash.isEmpty, Hash.empty]
  · intro limit offset
    simp [getTransactions, noFault, existsKey, hrec]
  · simp [getWalletSummary, noFault, hGetAll, hrec, Hash.isEmpty, Hash.empty]
  · intro render format now1
    simp [exportTransactionHistory, noFault, existsKey, hrec]

/-- Witness of C10: a wallet credited 10 is deleted. -/
theorem C10_delete_then_not_found_witness :
    (deleteWallet noFault sampleId 3
        (run [.assign sampleId 1, .credit sampleId (.fin 10) none 2 "t1"] emptyStore)).1
      = .deleteOk sampleId 3 :=
  (C10_delete_then_not_found
    (run [.assign sampleId 1, .credit sampleId (.fin 10) none 2 "t1"] emptyStore)
    sampleId
    { wallet_id := some sampleId, balance := some 10, created_at := some 1,
      last_updated := some 2 }
    3 (by decide!)).1

/-- C5, evaluated at a failing run: a wallet holds 100 and one transaction; the
reset route is served and its third store call, the `del` of the transaction
list, throws.  The request ends in failure (status 500), the stored balance has
been set to 0 and `last_updated` refreshed, and the transaction list is still
the one entry it was. -/
theorem C5_reset_failure_leaves_half_applied :
    walletOf100 (walletKey sampleId)
        = some (.hash
            { wallet_id := some sampleId, balance := some 100, created_at := some 1,
              last_updated := some 2 })
      ∧ walletOf100 (txKey sampleId)
        = some (.list [newTransaction "t0" .credit 100 none 2 100])
      ∧ (resetWallet (failAt 2) sampleId 3 walletOf100).1 = .serverError
      ∧ (resetWallet (failAt 2) sampleId 3 walletOf100).2 (walletKey sampleId)
        = some (.hash
            { wallet_id := some sampleId, balance := some 0, created_at := some 1,
              last_updated := some 3 })
      ∧ (resetWallet (failAt 2) sampleId 3 walletOf100).2 (txKey sampleId)
        = some (.list [newTransaction "t0" .credit 100 none 2 100]) := by
  refine ⟨?_, ?_, ?_, ?_, ?_⟩ <;> decide!

/-- C6, evaluated at a failing schedule: a wallet holds 100; a credit of 50 and
a debit of 30 are served concurrently and the store answers the read of the
credit, the read of the debit, the batch of the credit, the batch of the debit.
Both requests are answered with success, the final balance is 70 and the two
new entries carry the balances 150 and 70. -/
theorem C6_lost_update_under_interleaving :
    walletOf100 (walletKey sampleId)
        = some (.hash
            { wallet_id := some sampleId, balance := some 100, created_at := some 1,
              last_updated := some 2 })
      ∧ (interleave [false, true, false, true]
          (.start (creditPlan noFault sampleId 50 none 3 "t1"),
           .start (debitPlan noFault sampleId 30 none 4 "t2"), walletOf100)).1.response
        = some (.creditOk sampleId 50 150 "t1" 3)
      ∧ (interleave [false, true, false, true]
          (.start (creditPlan noFault sampleId 50 none 3 "t1"),
           .start (debitPlan noFault sampleId 30 none 4 "t2"), walletOf100)).2.1.response
        = some (.debitOk sampleId 30 70 "t2" 4)
      ∧ (interleave [false, true, false, true]
          (.start (creditPlan noFault sampleId 50 none 3 "t1"),
           .start (debitPlan noFault sampleId 30 none 4 "t2"), walletOf100)).2.2
            (walletKey sampleId)
        = some (.hash
            { wallet_id := some sampleId, balance := some 70, created_at := some 1,
              last_updated := some 4 })
      ∧ (interleave [false, true, false, true]
          (.start (creditPlan noFault sampleId 50 none 3 "t1"),
           .start (debitPlan noFault sampleId 30 none 4 "t2"), walletOf100)).2.2
            (txKey sampleId)
        = some (.list [newTransaction "t0" .credit 100 none 2 100,
            newTransaction "t1" .credit 50 none 3 150,
            newTransaction "t2" .debit 30 none 4 70]) := by
  refine ⟨?_, ?_, ?_, ?_, ?_⟩ <;> decide!

/-- C11: a credit of a valid amount `a` on an existing wallet with balance `b`
and transaction list `h` succeeds; the stored balance becomes `b + a` and
`last_updated` the current time, `wallet_id` and `created_at` stay; the list
becomes `h` followed by one credit entry of amount `a` with the reason of the
request, the current time as timestamp and `b + a` as balance after the
transaction; the answer carries the new balance, the transaction id and the
timestamp of that entry. -/
theorem C11_credit_effect (s : Store) (wallet_id : String) (w : Hash) (b a : ℚ)
    (h : List Transaction) (parsedAmount : JsNumber) (reason : Option String) (now : Nat)
    (transaction_id : String)
    (hw : s (walletKey wallet_id) = some (.hash w)) (hb : w.balance = some b)
    (hh : HasHistory s wallet_id h)
    (hv : validateCredit wallet_id parsedAmount reason = .ok a) :
    (creditRoute noFault wallet_id parsedAmount reason now transaction_id s).1
        = .creditOk wallet_id a (b + a) transaction_id now
      ∧ (creditRoute noFault wallet_id parsedAmount reason now transaction_id s).2
          (walletKey wallet_id)
        = some (.hash
            { wallet_id := w.wallet_id, balance := some (b + a), created_at := w.created_at,
              last_updated := some now })
      ∧ (creditRoute noFault wallet_id parsedAmount reason now transaction_id s).2
          (txKey wallet_id)
        = some (.list (h ++
            [{ transaction_id := transaction_id, type := .credit, amount := a,
               reason := reason.getD "", timestamp := now,
               balance_after_transaction := b + a }])) := by
  have hk : walletKey wallet_id ≠ txKey wallet_id := walletKey_ne_txKey wallet_id
  have hgd : w.balance.getD 0 = b := by rw [hb]; rfl
  have hroute : creditRoute noFault wallet_id parsedAmount reason now transaction_id s
      = creditWallet noFault wallet_id a reason now transaction_id s := by
    simp only [creditRoute, hv]
  rw [hroute, creditWallet_ok s wallet_id w h a reason now transaction_id hw
    (isEmpty_of_balance hb) hh, hgd]
  refine ⟨rfl, ?_, ?_⟩
  · dsimp only
    rw [Function.update_noteq hk, Function.update_same, merge_balancePatch]
  · dsimp only
    rw [Function.update_same]
    rfl

/-- Witness of C11: a wallet holding 100 is credited 50 with a reason. -/
theorem C11_credit_effect_witness :
    (creditRoute noFault sampleId (.fin 50) (some "bonus") 3 "t1" walletOf100).1
      = .creditOk sampleId 50 (100 + 50) "t1" 3 :=
  (C11_credit_effect walletOf100 sampleId
    { wallet_id := some sampleId, balance := some 100, created_at := some 1,
      last_updated := some 2 }
    100 50 [newTransaction "t0" .credit 100 none 2 100] (.fin 50) (some "bonus") 3 "t1"
    (by decide!) rfl (Or.inl (by decide!)) (by decide!)).1

/-- C12: a debit of a valid amount `a` on an existing wallet with balance `b`
and transaction list `h`, with `a` at most `b`, succeeds; the stored balance
becomes `b - a` and the list becomes `h` followed by one debit entry of amount
`a` with `b - a` as balance after the transaction.  A debit of the whole
balance leaves balance 0. -/
theorem C12_debit_effect (s : Store) (wallet_id : String) (w : Hash) (b a : ℚ)
    (h : List Transaction) (parsedAmount : JsNumber) (reason : Option String) (now : Nat)
    (transaction_id : String)
    (hw : s (walletKey wallet_id) = some (.hash w)) (hb : w.balance = some b)
    (hh : HasHistory s wallet_id h)
    (hv : validateDebit wallet_id parsedAmount reason = .ok a) (hab : a ≤ b) :
    (debitRoute noFault wallet_id parsedAmount reason now transaction_id s).1
        = .debitOk wallet_id a (b - a) transaction_id now
      ∧ (debitRoute noFault wallet_id parsedAmount reason now transaction_id s).2
          (walletKey wallet_id)
        = some (.hash
            { wallet_id := w.wallet_id, balance := some (b - a), created_at := w.created_at,
              last_updated := some now })
      ∧ (debitRoute noFault wallet_id parsedAmount reason now transaction_id s).2
          (txKey wallet_id)
        = some (.list (h ++
            [{ transaction_id := transaction_id, type := .debit, amount := a,
               reason := reason.getD "", timestamp := now,
               balance_after_transaction := b - a }]))
      ∧ (a = b → b - a = 0) := by
  have hk : walletKey wallet_id ≠ txKey wallet_id := walletKey_ne_txKey wallet_id
  have hgd : w.balance.getD 0 = b := by rw [hb]; rfl
  have hroute : debitRoute noFault wallet_id parsedAmount reason now transaction_id s
      = debitWallet noFault wallet_id a reason now transaction_id s := by
    simp only [debitRoute, hv]
  rw [hroute, debitWallet_ok s wallet_id w h a reason now transaction_id hw
    (isEmpty_of_balance hb) hh (by rw [hgd]; exact hab), hgd]
  refine ⟨rfl, ?_, ?_, fun e => by rw [e, sub_self]⟩
  · dsimp only
    rw [Function.update_noteq hk, Function.update_same, merge_balancePatch]
  · dsimp only
    rw [Function.update_same]
    rfl

/-- Witness of C12: a wallet holding 100 is debited its whole balance. -/
theorem C12_debit_effect_witness :
    (debitRoute noFault sampleId (.fin 100) none 3 "t1" walletOf100).1
      = .debitOk sampleId 100 (100 - 100) "t1" 3 :=
  (C12_debit_effect walletOf100 sampleId
    { wallet_id := some sampleId, balance := some 100, created_at := some 1,
      last_updated := some 2 }
    100 100 [newTransaction "t0" .credit 100 none 2 100] (.fin 100) none 3 "t1"
    (by decide!) rfl (Or.inl (by decide!)) (by decide!) (le_refl _)).1

/-- C13: a credit or debit request whose amount is not a positive finite number
(zero or negative, an infinity, or unparsable) is answered 400 by the validation
middleware whatever the store would do, with the store as it was; and the
middleware passes a request on only with a positive finite amount, the one the
handler is then called with. -/
theorem C13_invalid_amount_rejected (wallet_id : String) (parsedAmount : JsNumber)
    (reason : Option String) (now : Nat) (transaction_id : String) (s : Store) :
    (parsedAmount.notPositiveFinite →
        ∀ fault : Faults,
          (∃ e, creditRoute fault wallet_id parsedAmount reason now transaction_id s
              = (.badRequest e, s))
          ∧ (∃ e, debitRoute fault wallet_id parsedAmount reason now transaction_id s
              = (.badRequest e, s)))
      ∧ (∀ a, validateCredit wallet_id parsedAmount reason = .ok a →
          parsedAmount = .fin a ∧ 0 < a
            ∧ ∀ fault : Faults,
                creditRoute fault wallet_id parsedAmount reason now transaction_id s
                  = creditWallet fault wallet_id a reason now transaction_id s)
      ∧ (∀ a, validateDebit wallet_id parsedAmount reason = .ok a →
          parsedAmount = .fin a ∧ 0 < a
            ∧ ∀ fault : Faults,
                debitRoute fault wallet_id parsedAmount reason now transaction_id s
                  = debitWallet fault wallet_id a reason now transaction_id s) := by
  refine ⟨?_, ?_, ?_⟩
  · intro hbad fault
    obtain ⟨e, he⟩ := validateCredit_rejects wallet_id parsedAmount reason hbad
    constructor
    · exact ⟨e, by simp only [creditRoute, he]⟩
    · exact ⟨e, by simp only [debitRoute, validateDebit_eq, he]⟩
  · intro a ha
    exact ⟨validateCredit_ok_fin ha, validateCredit_pos ha,
      fun fault => by simp only [creditRoute, ha]⟩
  · intro a ha
    exact ⟨validateCredit_ok_fin ha, validateCredit_pos ha,
      fun fault => by simp only [debitRoute, ha]⟩

/-- Witness of C13: a credit of -5 on a wallet holding 100 is answered 400 even
by a store whose every call would throw. -/
theorem C13_invalid_amount_rejected_witness :
    ∃ e, creditRoute (fun _ => true) sampleId (.fin (-5)) none 3 "t1" walletOf100
      = (.badRequest e, walletOf100) :=
  ((C13_invalid_amount_rejected sampleId (.fin (-5)) none 3 "t1" walletOf100).1
    (by simp [JsNumber.notPositiveFinite]) (fun _ => true)).1

/-- C14, as stated, evaluated where it fails.  No wallet exists under `abc` in
the empty store, and a credit of 10 on `abc` is answered 400 by the validation
middleware, not 404.  No wallet record exists under the id of a wallet followed
by `:tx` either, where the key holds the transaction list of that wallet: there
the delete route answers with success and removes that list, the transactions
route answers with an empty sequence, and the reset and balance routes answer
500. -/
theorem C14_not_found_fails :
    emptyStore (walletKey "abc") = none
      ∧ creditRoute noFault "abc" (.fin 10) none 1 "t1" emptyStore
          = (.badRequest .invalidWalletId, emptyStore)
      ∧ walletOf100 (walletKey (sampleId ++ ":tx"))
          = some (.list [newTransaction "t0" .credit 100 none 2 100])
      ∧ (deleteWallet noFault (sampleId ++ ":tx") 3 walletOf100).1
          = .deleteOk (sampleId ++ ":tx") 3
      ∧ walletOf100 (txKey sampleId)
          = some (.list [newTransaction "t0" .credit 100 none 2 100])
      ∧ (deleteWallet noFault (sampleId ++ ":tx") 3 walletOf100).2 (txKey sampleId) = none
      ∧ getTransactions noFault (sampleId ++ ":tx") none none walletOf100
          = .transactionsOk (sampleId ++ ":tx") none []
      ∧ (resetWallet noFault (sampleId ++ ":tx") 3 walletOf100).1 = .serverError
      ∧ getWalletBalance noFault (sampleId ++ ":tx") walletOf100 = .serverError := by
  refine ⟨rfl, ?_, ?_, ?_, ?_, ?_, ?_, ?_, ?_⟩
  · simp only [creditRoute, validateCredit_invalid_id "abc" _ _ (by decide)]
  all_goals decide!

/-- C14, amended: in a reachable state, for a well-formed wallet id under which
no wallet record exists, the reset, delete, balance, transactions, summary and
export routes answer "Wallet not found", and so do the credit and debit routes
when the amount and the reason pass validation; the store is left as it was.
A credit or a debit with an ill-formed wallet id is answered 400 by the
validation middleware whatever the store would do, the store left as it was. -/
theorem C14_absent_wallet_not_found (s : Store) (wallet_id : String) (hr : Reachable s)
    (hid : walletIdSchema wallet_id = true) (hno : ¬ IsHash s (walletKey wallet_id)) :
    (∀ now, resetWallet noFault wallet_id now s = (.notFound, s))
      ∧ (∀ now, deleteWallet noFault wallet_id now s = (.notFound, s))
      ∧ getWalletBalance noFault wallet_id s = .notFound
      ∧ (∀ limit offset, getTransactions noFault wallet_id limit offset s = .notFound)
      ∧ getWalletSummary noFault wallet_id s = .notFound
      ∧ (∀ render format now,
          exportTransactionHistory noFault render wallet_id format now s = .notFound)
      ∧ (∀ parsedAmount reason now transaction_id a,
          validateCredit wallet_id parsedAmount reason = .ok a →
          creditRoute noFault wallet_id parsedAmount reason now transaction_id s
            = (.notFound, s))
      ∧ (∀ parsedAmount reason now transaction_id a,
          validateDebit wallet_id parsedAmount reason = .ok a →
          debitRoute noFault wallet_id parsedAmount reason now transaction_id s
            = (.notFound, s))
      ∧ (∀ (fault : Faults) (other : String) parsedAmount reason now transaction_id,
          walletIdSchema other = false →
          creditRoute fault other parsedAmount reason now transaction_id s
              = (.badRequest .invalidWalletId, s)
            ∧ debitRoute fault other parsedAmount reason now transaction_id s
              = (.badRequest .invalidWalletId, s)) := by
  obtain ⟨h1, h2, h3, h4, h5, h6, h7, h8⟩ :=
    absent_not_found s wallet_id (reachable_absent hr hid hno)
  refine ⟨h1, h2, h3, h4, h5, h6, ?_, ?_, ?_⟩
  · intro parsedAmount reason now transaction_id a hv
    simp only [creditRoute, hv]
    exact h7 a reason now transaction_id
  · intro parsedAmount reason now transaction_id a hv
    simp only [debitRoute, hv]
    exact h8 a reason now transaction_id
  · intro fault other parsedAmount reason now transaction_id hbad
    constructor
    · simp only [creditRoute, validateCredit_invalid_id other parsedAmount reason hbad]
    · simp only [debitRoute, validateDebit_eq,
        validateCredit_invalid_id other parsedAmount reason hbad]

/-- Witness of C14: a store holds one wallet; the balance of another well-formed
wallet id is asked for. -/
theorem C14_absent_wallet_not_found_witness :
    getWalletBalance noFault otherId walletOf100 = .notFound :=
  (C14_absent_wallet_not_found walletOf100 otherId
    (reachable_run _ emptyStore Reachable.empty ⟨⟨by decide, rfl⟩, trivial, trivial⟩)
    (by decide)
    (by
      have hnone : walletOf100 (walletKey otherId) = none := by decide!
      rintro ⟨w, hw⟩
      rw [hnone] at hw
      exact Option.noConfusion hw)).2.2.1

/-- C15: for an existing wallet with transaction list `h`, the export route
returns `h` itself, oldest first, which is the reverse of what the transactions
route returns for a limit covering the whole list (a safe integer, at most
2^53 - 1); with format csv (in any letter case) the text is the header line
naming the six columns, then one row per transaction of `h` in the order of
`h`, rows joined by line feeds, each row the six fields in column order joined
by commas with the reason between double quotes. -/
theorem C15_export_order_and_csv (s : Store) (wallet_id : String) (w : Hash)
    (h : List Transaction) (render : ℚ → String) (format : String) (now : Nat)
    (hw : s (walletKey wallet_id) = some (.hash w)) (hh : HasHistory s wallet_id h)
    (hf : format.toLower = "csv") :
    exportTransactionHistory noFault render wallet_id none now s
        = .exportJson wallet_id now h.length h
      ∧ (∀ limit : Int, 1 ≤ limit → (h.length : Int) ≤ limit → limit ≤ maxSafeInteger →
          getTransactions noFault wallet_id (some limit) (some 0) s
            = .transactionsOk wallet_id (if h.reverse = [] then none else some h.reverse.length)
                (exportTransactionHistory noFault render wallet_id none now
                  s).transactions.reverse)
      ∧ exportTransactionHistory noFault render wallet_id (some format) now s
        = .exportCsv wallet_id
            (String.intercalate "," csvColumns ++ "\n"
              ++ String.intercalate "\n"
                  (h.map (fun tx => String.intercalate "," (csvFields render tx))))
      ∧ (h.map (fun tx => String.intercalate "," (csvFields render tx))).length = h.length := by
  have hjson := exportJson_of_history s wallet_id w h render now hw hh
  refine ⟨hjson, ?_, ?_, List.length_map _ _⟩
  · intro limit hl hlen hb
    rw [hjson, getTransactions_all s wallet_id w h limit hw hh hl hlen hb]
    rfl
  · rw [exportCsv_of_history s wallet_id w h render format now hw hh hf, csvHeaders_eq]
    have hrows : h.map (csvRow render)
        = h.map (fun tx => String.intercalate "," (csvFields render tx)) :=
      List.map_congr_left (fun tx _ => csvRow_eq render tx)
    rw [hrows]

/-- Witness of C15: the CSV export of a wallet credited 10 for "salary", debited
4 for "rent" and credited 1 for "gift", amounts written as integers: the header
line, then the three rows, oldest first, each reason between double quotes. -/
theorem C15_export_order_and_csv_witness :
    exportTransactionHistory noFault (fun q => toString q.num) sampleId (some "CSV") 5
        walletWithReasons
      = .exportCsv sampleId
          ("transaction_id,type,amount,reason,timestamp,balance_after_transaction\n"
            ++ "t1,credit,10," ++ dquote ++ "salary" ++ dquote ++ ",2,10\n"
            ++ "t2,debit,4," ++ dquote ++ "rent" ++ dquote ++ ",3,6\n"
            ++ "t3,credit,1," ++ dquote ++ "gift" ++ dquote ++ ",4,7") :=
  (C15_export_order_and_csv walletWithReasons sampleId
    { wallet_id := some sampleId, balance := some 7, created_at := some 1,
      last_updated := some 4 }
    [newTransaction "t1" .credit 10 (some "salary") 2 10,
      newTransaction "t2" .debit 4 (some "rent") 3 6,
      newTransaction "t3" .credit 1 (some "gift") 4 7]
    (fun q => toString q.num) "CSV" 5
    (by decide!) (Or.inl (by decide!)) (by decide!)).2.2.1.trans (by decide!)

/-- C16, as stated, evaluated where it fails, on a wallet with three
transactions.  A limit of 0, a non-negative integer, is not used as supplied:
the route answers as for limit 20, with all three transactions.  A limit of -2
is not replaced by 20: the route answers with the newest transaction only.  An
offset of -1 is not replaced by 0: the route answers with an empty sequence
where offset 0 gives two transactions.  A limit of 10^21 makes the request
fail: the index sent to the store is not a 64-bit integer and the route answers
500. -/
theorem C16_defaults_fail :
    parseIntOr (some 0) 20 = 20
      ∧ getTransactions noFault sampleId (some 0) none walletOf3
          = .transactionsOk sampleId (some 3)
              [newTransaction "t3" .credit 30 none 4 60,
               newTransaction "t2" .credit 20 none 3 30,
               newTransaction "t1" .credit 10 none 2 10]
      ∧ parseIntOr (some (-2)) 20 = -2
      ∧ getTransactions noFault sampleId (some (-2)) none walletOf3
          = .transactionsOk sampleId (some 1) [newTransaction "t3" .credit 30 none 4 60]
      ∧ getTransactions noFault sampleId (some 20) none walletOf3
          = .transactionsOk sampleId (some 3)
              [newTransaction "t3" .credit 30 none 4 60,
               newTransaction "t2" .credit 20 none 3 30,
               newTransaction "t1" .credit 10 none 2 10]
      ∧ parseIntOr (some (-1)) 0 = -1
      ∧ getTransactions noFault sampleId (some 2) (some (-1)) walletOf3
          = .transactionsOk sampleId none []
      ∧ getTransactions noFault sampleId (some 2) (some 0) walletOf3
          = .transactionsOk sampleId (some 2)
              [newTransaction "t3" .credit 30 none 4 60,
               newTransaction "t2" .credit 20 none 3 30]
      ∧ parseIntOr (some hugeLimit) 20 = hugeLimit
      ∧ getTransactions noFault sampleId (some hugeLimit) none walletOf3 = .serverError := by
  refine ⟨?_, ?_, ?_, ?_, ?_, ?_, ?_, ?_, ?_, ?_⟩ <;> decide!

/-- C16, amended: the limit used by the transactions route is 20 when the parsed
limit is `NaN` (absent or not numeric) or 0, and the parsed value when that is a
positive integer; the offset used is 0 when the parsed offset is `NaN`, and the
parsed value when that is a non-negative integer; for an existing wallet, a
positive limit and a non-negative offset whose sum is a safe integer (at most
2^53 - 1) select `take limit (drop offset (reverse h))`; and for an existing
wallet the route answers with a sequence of transactions whenever each of the
two parsed parameters is `NaN` or a safe integer. -/
theorem C16_effective_limit_and_offset (s : Store) (wallet_id : String) (w : Hash)
    (h : List Transaction) (hw : s (walletKey wallet_id) = some (.hash w))
    (hh : HasHistory s wallet_id h) :
    (∀ offset, getTransactions noFault wallet_id none offset s
        = getTransactions noFault wallet_id (some 20) offset s)
      ∧ (∀ offset, getTransactions noFault wallet_id (some 0) offset s
        = getTransactions noFault wallet_id (some 20) offset s)
      ∧ (∀ limit, getTransactions noFault wallet_id limit none s
        = getTransactions noFault wallet_id limit (some 0) s)
      ∧ parseIntOr none 20 = 20 ∧ parseIntOr (some 0) 20 = 20
      ∧ (∀ n : Int, 0 < n → parseIntOr (some n) 20 = n)
      ∧ parseIntOr none 0 = 0
      ∧ (∀ n : Int, 0 ≤ n → parseIntOr (some n) 0 = n)
      ∧ (∀ limit offset : Int, 0 < limit → 0 ≤ offset → offset + limit ≤ maxSafeInteger →
          getTransactions noFault wallet_id (some limit) (some offset) s
            = .transactionsOk wallet_id
                (if (h.reverse.drop offset.toNat).take limit.toNat = [] then none
                  else some ((h.reverse.drop offset.toNat).take limit.toNat).length)
                ((h.reverse.drop offset.toNat).take limit.toNat))
      ∧ (∀ limit offset : Option Int, safeParameter limit → safeParameter offset →
          ∃ count page, getTransactions noFault wallet_id limit offset s
            = .transactionsOk wallet_id count page) := by
  refine ⟨?_, ?_, ?_, rfl, rfl, ?_, rfl, ?_, ?_, ?_⟩
  · intro offset
    exact (getTransactions_defaults wallet_id none offset s).1
  · intro offset
    exact (getTransactions_defaults wallet_id none offset s).2.1
  · intro limit
    exact (getTransactions_defaults wallet_id limit none s).2.2
  · intro n hn
    simp only [parseIntOr]
    rw [if_neg (by omega)]
  · intro n hn
    simp only [parseIntOr]
    split <;> omega
  · intro limit offset hl ho hb
    exact getTransactions_safe_page s wallet_id w h limit offset hw hh (by omega) ho hb
  · intro limit offset hl ho
    exact ⟨_, _, getTransactions_safe s wallet_id w h limit offset hw hh hl ho⟩

/-- Witness of C16: a wallet with three transactions is asked for its
transactions with a limit that is not numeric and an offset of 1, both safe
parameters, and answers with a sequence of transactions. -/
theorem C16_effective_limit_and_offset_witness :
    ∃ count page, getTransactions noFault sampleId none (some 1) walletOf3
      = .transactionsOk sampleId count page :=
  (C16_effective_limit_and_offset walletOf3 sampleId
    { wallet_id := some sampleId, balance := some 60, created_at := some 1,
      last_updated := some 4 }
    [newTransaction "t1" .credit 10 none 2 10, newTransaction "t2" .credit 20 none 3 30,
      newTransaction "t3" .credit 30 none 4 60]
    (by decide!) (Or.inl (by decide!))).2.2.2.2.2.2.2.2.2 none (some 1)
      (by intro n hn; cases hn) (by intro n hn; cases hn; decide)

/-- C17: for an existing wallet with a non-empty transaction list the summary
route answers with a `last_transaction_timestamp` that is the timestamp of one
of the transactions and is at least the timestamp of every transaction, that
is, the maximum; for an empty list it is null. -/
theorem C17_last_timestamp_is_max (s : Store) (wallet_id : String) (w : Hash) (b : ℚ)
    (h : List Transaction) (hw : s (walletKey wallet_id) = some (.hash w))
    (hb : w.balance = some b) (hh : HasHistory s wallet_id h) :
    (getWalletSummary noFault wallet_id s).isSummary = true
      ∧ (h = [] → (getWalletSummary noFault wallet_id s).lastTransactionTimestamp = none)
      ∧ (h ≠ [] → ∃ m,
          (getWalletSummary noFault wallet_id s).lastTransactionTimestamp = some m
            ∧ (∃ tx ∈ h, tx.timestamp = m) ∧ ∀ tx ∈ h, tx.timestamp ≤ m) := by
  have hne : w.isEmpty = false := isEmpty_of_balance hb
  have hlast : (getWalletSummary noFault wallet_id s).isSummary = true
      ∧ (getWalletSummary noFault wallet_id s).lastTransactionTimestamp
        = (h.foldl summaryStep
            { totalCredits := 0, totalDebits := 0, lastTransactionTimestamp := none }
            ).lastTransactionTimestamp := by
    unfold getWalletSummary
    simp only [noFault, hGetAll, hw, hne, lRange_all_of_history hh,
      Bool.false_eq_true, if_false, Response.lastTransactionTimestamp, Response.isSummary,
      and_self]
  refine ⟨hlast.1, ?_, ?_⟩
  · intro hnil
    rw [hlast.2, hnil]
    rfl
  · intro hnon
    rw [hlast.2]
    cases h with
    | nil => exact absurd rfl hnon
    | cons t rest => exact summary_last_is_max t rest 0 0

/-- Witness of C17: for a wallet credited at times 2, 3 and 4 the summary
carries a last timestamp of at least 4. -/
theorem C17_last_timestamp_is_max_witness :
    ∃ m, (getWalletSummary noFault sampleId walletOf3).lastTransactionTimestamp = some m
      ∧ 4 ≤ m := by
  obtain ⟨m, hm, _, hall⟩ := (C17_last_timestamp_is_max walletOf3 sampleId
    { wallet_id := some sampleId, balance := some 60, created_at := some 1,
      last_updated := some 4 }
    60
    [newTransaction "t1" .credit 10 none 2 10, newTransaction "t2" .credit 20 none 3 30,
      newTransaction "t3" .credit 30 none 4 60]
    (by decide!) rfl (Or.inl (by decide!))).2.2 (by simp)
  exact ⟨m, hm, hall (newTransaction "t3" .credit 30 none 4 60) (by simp)⟩

/-- C18: in a reachable state, for an existing wallet, a credit, a debit and a
reset that succeed leave `wallet_id` and `created_at` of the wallet record as
they were, `wallet_id` being the id given by assign; they write `balance` and
`last_updated` only; and they leave the record and the transaction list of
every other wallet unchanged. -/
theorem C18_frame_of_credit_debit_reset (s : Store) (wallet_id : String) (w : Hash) (b : ℚ)
    (hr : Reachable s) (hw : s (walletKey wallet_id) = some (.hash w))
    (hb : w.balance = some b) :
    w.wallet_id = some wallet_id
      ∧ (∀ parsedAmount reason now transaction_id a,
          validateCredit wallet_id parsedAmount reason = .ok a →
          (creditRoute noFault wallet_id parsedAmount reason now transaction_id s).1
              = .creditOk wallet_id a (b + a) transaction_id now
            ∧ (creditRoute noFault wallet_id parsedAmount reason now transaction_id s).2
                (walletKey wallet_id)
              = some (.hash
                  { wallet_id := w.wallet_id, balance := some (b + a),
                    created_at := w.created_at, last_updated := some now })
            ∧ SameElsewhere s
                (creditRoute noFault wallet_id parsedAmount reason now transaction_id s).2
                wallet_id)
      ∧ (∀ parsedAmount reason now transaction_id a,
          validateDebit wallet_id parsedAmount reason = .ok a → a ≤ b →
          (debitRoute noFault wallet_id parsedAmount reason now transaction_id s).1
              = .debitOk wallet_id a (b - a) transaction_id now
            ∧ (debitRoute noFault wallet_id parsedAmount reason now transaction_id s).2
                (walletKey wallet_id)
              = some (.hash
                  { wallet_id := w.wallet_id, balance := some (b - a),
                    created_at := w.created_at, last_updated := some now })
            ∧ SameElsewhere s
                (debitRoute noFault wallet_id parsedAmount reason now transaction_id s).2
                wallet_id)
      ∧ (∀ now,
          (resetWallet noFault wallet_id now s).1 = .resetOk wallet_id 0 now
            ∧ (resetWallet noFault wallet_id now s).2 (walletKey wallet_id)
              = some (.hash
                  { wallet_id := w.wallet_id, balance := some 0,
                    created_at := w.created_at, last_updated := some now })
            ∧ SameElsewhere s (resetWallet noFault wallet_id now s).2 wallet_id) := by
  have hk := reachable_hashKeys hr
  have hid : walletIdSchema wallet_id = true := reachable_wallet_uuid hr hw
  have hh : HasHistory s wallet_id (storedHistory s wallet_id) := hasHistory_of_hashKeys hk hid
  have hwt : walletKey wallet_id ≠ txKey wallet_id := walletKey_ne_txKey wallet_id
  have hgd : w.balance.getD 0 = b := by rw [hb]; rfl
  refine ⟨(reachable_records hr wallet_id w hw).1, ?_, ?_, ?_⟩
  · intro parsedAmount reason now transaction_id a hv
    have hroute : creditRoute noFault wallet_id parsedAmount reason now transaction_id s
        = creditWallet noFault wallet_id a reason now transaction_id s := by
      simp only [creditRoute, hv]
    rw [hroute, creditWallet_ok s wallet_id w _ a reason now transaction_id hw
      (isEmpty_of_balance hb) hh, hgd]
    refine ⟨rfl, ?_, sameElsewhere_update s wallet_id _ _ hk hid⟩
    dsimp only
    rw [Function.update_noteq hwt, Function.update_same, merge_balancePatch]
  · intro parsedAmount reason now transaction_id a hv hab
    have hroute : debitRoute noFault wallet_id parsedAmount reason now transaction_id s
        = debitWallet noFault wallet_id a reason now transaction_id s := by
      simp only [debitRoute, hv]
    rw [hroute, debitWallet_ok s wallet_id w _ a reason now transaction_id hw
      (isEmpty_of_balance hb) hh (by rw [hgd]; exact hab), hgd]
    refine ⟨rfl, ?_, sameElsewhere_update s wallet_id _ _ hk hid⟩
    dsimp only
    rw [Function.update_noteq hwt, Function.update_same, merge_balancePatch]
  · intro now
    rw [resetWallet_ok s wallet_id w now hw]
    refine ⟨rfl, ?_, sameElsewhere_update s wallet_id _ _ hk hid⟩
    dsimp only
    rw [Function.update_noteq hwt, Function.update_same, merge_balancePatch]

/-- Witness of C18: of two wallets the second is reset; the record of the first
is the same afterwards. -/
theorem C18_frame_of_credit_debit_reset_witness :
    (resetWallet noFault otherId 5 twoWallets).2 (walletKey sampleId)
      = twoWallets (walletKey sampleId) :=
  (((C18_frame_of_credit_debit_reset twoWallets otherId
    { wallet_id := some otherId, balance := some 0, created_at := some 3,
      last_updated := some 3 }
    0
    (reachable_run _ emptyStore Reachable.empty
      ⟨⟨by decide, rfl⟩, trivial, ⟨by decide, by decide!⟩, trivial⟩)
    (by decide!) rfl).2.2.2 5).2.2 sampleId (by decide)
      ⟨{ wallet_id := some sampleId, balance := some 100, created_at := some 1,
         last_updated := some 2 }, by decide!⟩).1

/-- C19, evaluated at a failing run: a wallet is created and credited 100, then
the delete route is called with the wallet id followed by `:tx`.  The state is
reachable and the wallet exists; its summary reports balance 100 with total
credits 0 and total debits 0. -/
theorem C19_summary_totals_differ_from_balance :
    Reachable historyWiped
      ∧ historyWiped (walletKey sampleId)
        = some (.hash
            { wallet_id := some sampleId, balance := some 100, created_at := some 1,
              last_updated := some 2 })
      ∧ getWalletSummary noFault sampleId historyWiped
        = .summaryOk
            { wallet_id := sampleId, balance := some 100, total_credits := 0,
              total_debits := 0, transaction_count := 0, average_transaction_size := 0,
              last_transaction_timestamp := none, created_at := some 1,
              last_updated := some 2 } := by
  refine ⟨?_, by decide!, by decide!⟩
  exact reachable_run _ emptyStore Reachable.empty ⟨⟨by decide, rfl⟩, trivial, trivial, trivial⟩

/-- C20, as stated, evaluated where it fails: a wallet with three transactions
is read in pages of size 10^21.  The first page request sends the store an
index that is not a 64-bit integer and is answered 500, so the pages read until
the first empty one hold no transaction at all, whereas export returns three
transactions. -/
theorem C20_huge_page_size_fails :
    walletOf3 (walletKey sampleId)
        = some (.hash
            { wallet_id := some sampleId, balance := some 60, created_at := some 1,
              last_updated := some 4 })
      ∧ 1 ≤ hugePageSize
      ∧ getTransactions noFault sampleId (some (hugePageSize : Int))
          (some ((0 * hugePageSize : Nat) : Int)) walletOf3 = .serverError
      ∧ readPages (rangePage walletOf3 sampleId hugePageSize) 4 0 = []
      ∧ (exportTransactionHistory noFault (fun _ => "") sampleId none 5
          walletOf3).transactions.reverse
          = [newTransaction "t3" .credit 30 none 4 60,
             newTransaction "t2" .credit 20 none 3 30,
             newTransaction "t1" .credit 10 none 2 10] := by
  refine ⟨?_, ?_, ?_, ?_, ?_⟩ <;> decide!

/-- C20, amended: for an existing wallet with transaction list `h` and a page
size `k` of at least 1 such that the length of `h` plus twice `k` is a safe
integer (at most 2^53 - 1), every page up to the first empty one (page number
`i` with `i * k` below the length of `h` plus `k`) is answered with success and
holds the entries at positions `i * k` to `i * k + k - 1` of the reverse of the
exported list, so no position is read twice; reading the pages from the first
one until the first empty page, with enough requests allowed, collects exactly
the reverse of the list returned by export; and when the transactions of `h`
are pairwise distinct two different such pages have no transaction in common. -/
theorem C20_paging_visits_each_once (s : Store) (wallet_id : String) (w : Hash)
    (h : List Transaction) (k : Nat) (render : ℚ → String) (now : Nat)
    (hw : s (walletKey wallet_id) = some (.hash w)) (hh : HasHistory s wallet_id h)
    (hk : 1 ≤ k) (hbound : (h.length : Int) + 2 * (k : Int) ≤ maxSafeInteger) :
    (exportTransactionHistory noFault render wallet_id none now s).transactions = h
      ∧ (∀ i, i * k < h.length + k →
          getTransactions noFault wallet_id (some (k : Int)) (some ((i * k : Nat) : Int)) s
            = .transactionsOk wallet_id
                (if rangePage s wallet_id k i = [] then none
                  else some (rangePage s wallet_id k i).length)
                (rangePage s wallet_id k i))
      ∧ (∀ i, i * k < h.length + k → (rangePage s wallet_id k i).length ≤ k)
      ∧ (∀ i p, i * k < h.length + k → p < k →
          (rangePage s wallet_id k i)[p]?
            = (exportTransactionHistory noFault render wallet_id none now
                s).transactions.reverse[i * k + p]?)
      ∧ (∀ fuel, h.length < fuel →
          readPages (rangePage s wallet_id k) fuel 0
            = (exportTransactionHistory noFault render wallet_id none now
                s).transactions.reverse)
      ∧ (∀ fuel, h.length < fuel →
          ∃ i, i < fuel ∧ i * k < h.length + k ∧ rangePage s wallet_id k i = [])
      ∧ (h.Nodup → ∀ i j, i ≠ j → i * k < h.length + k → j * k < h.length + k →
          List.Disjoint (rangePage s wallet_id k i) (rangePage s wallet_id k j)) := by
  have hexp : (exportTransactionHistory noFault render wallet_id none now s).transactions
      = h := by
    rw [exportJson_of_history s wallet_id w h render now hw hh]
    rfl
  have hin : ∀ i, i * k < h.length + k →
      ((i * k : Nat) : Int) + (k : Int) ≤ maxSafeInteger := by
    intro i hi
    have : ((i * k : Nat) : Int) < (h.length : Int) + (k : Int) := by exact_mod_cast hi
    omega
  have hpage : ∀ i, i * k < h.length + k →
      rangePage s wallet_id k i = (h.reverse.drop (i * k)).take k :=
    fun i hi => (rangePage_eq s wallet_id w h k i hw hh hk (hin i hi)).2
  rw [hexp]
  refine ⟨rfl, ?_, ?_, ?_, ?_, ?_, ?_⟩
  · intro i hi
    rw [hpage i hi]
    exact (rangePage_eq s wallet_id w h k i hw hh hk (hin i hi)).1
  · intro i hi
    rw [hpage i hi]
    exact List.length_take_le _ _
  · intro i p hi hp
    rw [hpage i hi]
    simp only [List.getElem?_take, hp, if_true, List.getElem?_drop]
  · intro fuel hfuel
    have hwin := readPages_of_windows h.reverse k hk (rangePage s wallet_id k)
      (by rw [List.length_reverse]; exact hpage) fuel 0
      (by rw [List.length_reverse]; omega) (by rw [List.length_reverse]; omega)
    rw [hwin]
    simp
  · intro fuel hfuel
    obtain ⟨h1, h2, h3⟩ := first_empty_page h.length k hk
    refine ⟨(h.length + k - 1) / k, by omega, h2, ?_⟩
    rw [hpage _ h2, List.drop_eq_nil_of_le (by rw [List.length_reverse]; exact h3)]
    exact List.take_nil
  · intro hnodup i j hij hi hj
    have hr : h.reverse.Nodup := List.nodup_reverse.mpr hnodup
    rw [hpage i hi, hpage j hj]
    rcases Nat.lt_or_gt_of_ne hij with hlt | hgt
    · exact windows_disjoint h.reverse hr k i j hlt
    · exact (windows_disjoint h.reverse hr k j i hgt).symm

/-- Witness of C20: a wallet with three transactions is read in pages of 2. -/
theorem C20_paging_visits_each_once_witness :
    readPages (rangePage walletOf3 sampleId 2) 4 0
      = (exportTransactionHistory noFault (fun _ => "") sampleId none 5
          walletOf3).transactions.reverse :=
  (C20_paging_visits_each_once walletOf3 sampleId
    { wallet_id := some sampleId, balance := some 60, created_at := some 1,
      last_updated := some 4 }
    [newTransaction "t1" .credit 10 none 2 10, newTransaction "t2" .credit 20 none 3 30,
      newTransaction "t3" .credit 30 none 4 60]
    2 (fun _ => "") 5 (by decide!) (Or.inl (by decide!)) (by decide) (by decide)).2.2.2.2.1 4
      (by decide)

end Wallet
